import Mathlib

/-!
Shallow embedding of the recommendation core of `app.py` (a single-file
Spotify-backed song recommender) together with proofs about the
specification claims C1 .. C10.

Modelling conventions, used consistently below:

* Catalog records (tracks, artists) are structures whose fields mirror the
  JSON fields the Python code actually reads.  A field read with a
  falsy-collapsing default (`x.get("k") or ""`, `.get("k","")`) is modelled
  as a plain `String` with `""` standing for "absent"; a field whose absence
  is distinguished from `""` (`adata.get("name", default)`) is an `Option`.
* Network operations (`urllib` calls inside the `SpotifyClient` methods) are
  the I/O boundary.  Each client method that performs a request is given by
  an oracle field of the `Catalog` structure returning `Except Unit _`;
  `Except.error ()` models a raised transport exception, which the Python
  code catches with `try/except` blocks that are translated as `match`.
* The two random sources are parameters: the pseudorandom permutations a
  `random.Random(regen_nonce)` generator produces at the various
  `rng.shuffle(...)` call sites are fields of `Shuffler` (indexed by call
  site and iteration so that every concrete run of the Python code is an
  instance), and the seeded generator inside `_stable_shuffle` is a stream
  `rb : Nat -> Nat -> Nat` (seed, then bound) feeding a faithful translation
  of CPython's Fisher-Yates `random.shuffle` loop.
* `sha256` (only used to derive an integer seed) is a parameter
  `hashS : String -> Nat`; `rapidfuzz.fuzz.token_sort_ratio` is a parameter
  `similarity : String -> String -> Rat` (the claims under study hold for
  every similarity function, scores are modelled over `Rat`); the Unicode
  NFKD-decompose-and-drop-combining-marks step of `_clean` is a parameter
  `nfkd : String -> String` (identity on ASCII input).
* Python `set` values whose iteration order the code observes
  (`list(union_genres)[:5]`) are modelled by a parameter
  `pyset : List String -> List String` applied to the collected elements;
  membership-only sets are modelled as lists with `∈`.
-/

namespace SongRec

/-! ## Data model -/

/-- An entry of a track's `artists` list: the fields `id`/`name` read by the
code, with `""` for an absent field. -/
structure ArtistRef where
  aid : String
  aname : String
deriving DecidableEq, Inhabited

/-- A track object as consumed by the code: `id`, `name`, `artists`,
optional `popularity` (read with default 50) and the
`external_urls.spotify` link (`""` when absent). -/
structure Track where
  tid : String
  tname : String
  tartists : List ArtistRef
  tpop : Option Int
  turl : String
deriving DecidableEq, Inhabited

/-- An artist object as consumed by the code: `id`, optional `name`
(`adata.get("name", d)` distinguishes a missing key from `""`), `genres`
(read with `or []`), optional `popularity` (default 50) and the
`external_urls.spotify` link (`""` when absent). -/
structure Artist where
  aid : String
  anameO : Option String
  agenres : List String
  apop : Option Int
  aurl : String
deriving DecidableEq, Inhabited

/-- A recommendation item `(label, url)`. -/
abbrev Item := String × String

/-- The `{}` placeholder used for `sp.get_artist(aid) if aid else {}`. -/
def emptyArtist : Artist := { aid := "", anameO := none, agenres := [], apop := none, aurl := "" }

/-- `SpotifyClient.extract_track_core`: derive
`(id, name, lead artist id, lead artist name, url)` from a track, the url
falling back to a constructed deep link when the record has none. -/
def extract_track_core (tr : Track) : String × String × String × String × String :=
  let tid := tr.tid
  let tname := tr.tname
  let a_id := (tr.tartists.head?.map ArtistRef.aid).getD ""
  let a_name := (tr.tartists.head?.map ArtistRef.aname).getD ""
  let turl := if tr.turl ≠ "" then tr.turl
    else if tid ≠ "" then "https://open.spotify.com/track/" ++ tid else ""
  (tid, tname, a_id, a_name, turl)

/-- Second component (`tname`) of `extract_track_core`. -/
def etc_tname (tr : Track) : String := (extract_track_core tr).2.1

/-- Fourth component (`pa_name`, the lead artist name) of
`extract_track_core`. -/
def etc_lead (tr : Track) : String := (extract_track_core tr).2.2.2.1

/-- Fifth component (`turl`) of `extract_track_core`. -/
def etc_url (tr : Track) : String := (extract_track_core tr).2.2.2.2

/-- `_artist_url` from `build_recommendation_buckets`: the explicit external
url, else a deep link constructed from the id, else `""`. -/
def artist_url (ar : Artist) : String :=
  if ar.aurl ≠ "" then ar.aurl
  else if ar.aid ≠ "" then "https://open.spotify.com/artist/" ++ ar.aid else ""

/-! ## `_interleave_lists` -/

/-- `_interleave_lists`: round-robin merge.  For `i` from `0` to the length
of the longest list, append the `i`-th element of every list that has one,
in list order. -/
def interleave_lists (lists : List (List α)) : List α :=
  (List.range ((lists.map List.length).foldr max 0)).flatMap
    (fun i => lists.filterMap (fun lst => lst.get? i))

/-! ## `_stable_shuffle` and CPython's `random.shuffle` -/

/-- One Python swap `x[i], x[j] = x[j], x[i]` on a list; out-of-range
indices leave the list unchanged (they never occur in the shuffle loop). -/
def list_swap (l : List α) (i j : Nat) : List α :=
  match l.get? i, l.get? j with
  | some a, some b => (l.set i b).set j a
  | _, _ => l

/-- The loop of CPython's `random.Random.shuffle`:
`for i in reversed(range(1, len(x))): j = _randbelow(i+1); swap i j`.
`rb` gives the generator's output for the call with bound `i+1` (the bounds
are pairwise distinct across the loop, so a stream indexed by the bound
represents any concrete generator run); `% (i+1)` keeps `j ≤ i` exactly as
`_randbelow` guarantees. -/
def py_shuffle_aux (rb : Nat → Nat) : Nat → List α → List α
  | 0, l => l
  | k+1, l => py_shuffle_aux rb k (list_swap l (k+1) (rb (k+2) % (k+2)))

/-- `rng.shuffle(x)` as a pure function of the random stream. -/
def py_shuffle (rb : Nat → Nat) (l : List α) : List α :=
  py_shuffle_aux rb (l.length - 1) l

/-- `_stable_shuffle(items, salt)`: seed an rng with the sha256 of the salt
(`hashS`), copy the list, shuffle the copy in place, return the copy. -/
def stable_shuffle (hashS : String → Nat) (rb : Nat → Nat → Nat)
    (items : List α) (salt : String) : List α :=
  let seedInt := hashS salt
  let itemsCopy := items
  py_shuffle (rb seedInt) itemsCopy

/-- State-passing rendering of a call `_stable_shuffle(items, salt)`: the
in-place `rng.shuffle` acts on the binding `items_copy = items.copy()`,
so the pair returned is (return value, caller's list after the call). -/
def stable_shuffle_call (hashS : String → Nat) (rb : Nat → Nat → Nat)
    (items : List α) (salt : String) : List α × List α :=
  let seedInt := hashS salt
  let itemsCopy := items
  let shuffled := py_shuffle (rb seedInt) itemsCopy
  (shuffled, items)

/-! ## `_dedupe` (inside `build_recommendation_buckets`) -/

/-- The dedup key `(n or "").strip().lower()`. -/
def norm_key (n : String) : String := n.trim.toLower

/-- Loop of `_dedupe`: keep an item when its key is non-empty and unseen. -/
def dedupe_aux (seen : List String) : List Item → List Item
  | [] => []
  | (n, u) :: rest =>
    let k := norm_key n
    if k ≠ "" ∧ k ∉ seen then (n, u) :: dedupe_aux (k :: seen) rest
    else dedupe_aux seen rest

/-- `_dedupe`: deduplicate by normalized label, first occurrence wins,
items with an all-whitespace label dropped. -/
def dedupe (items : List Item) : List Item := dedupe_aux [] items

/-! ## The catalog oracle and the environment -/

/-- The network-performing `SpotifyClient` methods, one oracle field per
request the method issues; `Except.error ()` models a raised exception.
The first `String` argument of market-scoped requests is the client's
market. -/
structure Catalog where
  search_track_q : String → String → String → Nat → Except Unit (List Track)
  search_filtered_quoted : String → String → String → Nat → Except Unit (List Track)
  search_filtered_plain : String → String → String → Nat → Except Unit (List Track)
  search_free_q : String → String → Nat → Except Unit (List Track)
  search_artist_q : String → String → Nat → Except Unit (List Artist)
  artist_by_id : String → Except Unit Artist
  top_tracks_raw : String → String → Except Unit (List Track)
  related_raw : String → Except Unit (List Artist)
  genre_artists_raw : String → String → Nat → Nat → Except Unit (List Artist)

/-- The permutations produced by the nonce-seeded `random.Random` at each
`rng.shuffle(...)` call site of the engine, indexed by a per-site constant
and the loop iteration (plus genre/artist indices for the nested songs
loop), so that any concrete generator run is an instance. -/
structure Shuffler where
  track_mix : Nat → Nat → List Track → List Track
  artist_mix : Nat → Nat → List Artist → List Artist
  songs_top_mix : Nat → Nat → List Track → List Track

/-- Everything the recommendation core depends on besides its arguments. -/
structure Env where
  cat : Catalog
  sh : Shuffler
  nfkd : String → String
  similarity : String → String → ℚ
  pyset : List String → List String
  hashS : String → Nat
  rb : Nat → Nat → Nat

/-! ## Client method wrappers (the pure logic around each request) -/

/-- `(market or "US").upper()` from the `SpotifyClient` constructor. -/
def norm_market (mk : String) : String := (if mk = "" then "US" else mk).toUpper

/-- `SpotifyClient.search_track`: empty title and artist short-circuit to
`[]` without a request. -/
def search_track (C : Catalog) (mk title artist : String) (limit : Nat) :
    Except Unit (List Track) :=
  if title.trim = "" ∧ artist.trim = "" then pure []
  else C.search_track_q mk title artist limit

/-- `SpotifyClient.search_tracks_filtered`: quoted field query first, then
the loosened unquoted query when the first returns nothing; no request at
all when both fields are empty. -/
def search_tracks_filtered (C : Catalog) (mk title artist : String) (limit : Nat) :
    Except Unit (List Track) := do
  let results ← if title ≠ "" ∨ artist ≠ "" then C.search_filtered_quoted mk title artist limit
    else pure []
  if results = [] then
    if title ≠ "" ∨ artist ≠ "" then C.search_filtered_plain mk title artist limit
    else pure []
  else pure results

/-- `SpotifyClient.search_tracks_free`. -/
def search_tracks_free (C : Catalog) (mk query : String) (limit : Nat) :
    Except Unit (List Track) :=
  if query.trim = "" then pure [] else C.search_free_q mk query.trim limit

/-- `SpotifyClient.search_artist_by_name`. -/
def search_artist_by_name (C : Catalog) (mk name : String) (limit : Nat) :
    Except Unit (List Artist) :=
  if name.trim = "" then pure [] else C.search_artist_q mk name.trim limit

/-- `SpotifyClient.search_artists_by_genre`. -/
def search_artists_by_genre (C : Catalog) (mk genre : String) (limit offset : Nat) :
    Except Unit (List Artist) :=
  if genre.trim = "" then pure []
  else C.genre_artists_raw mk genre.trim limit offset

/-- `SpotifyClient.get_artist_top_tracks`: the response truncated to
`limit`. -/
def get_artist_top_tracks (C : Catalog) (mk aid : String) (limit : Nat) :
    Except Unit (List Track) :=
  (C.top_tracks_raw mk aid).map (fun items => items.take limit)

/-- The engine's recurring pattern: fetch top tracks, re-fetch through a
fresh `market="US"` client when the configured market returns none. -/
def top_tracks_with_us_fallback (C : Catalog) (mk aid : String) (limit : Nat) :
    Except Unit (List Track) := do
  let top ← get_artist_top_tracks C mk aid limit
  if top = [] then get_artist_top_tracks C "US" aid limit else pure top

/-! ## `_clean` -/

/-- Collapse every whitespace run to a single space
(`re.sub(r"\s+", " ")`); the flag records whether the previous character
was part of a whitespace run. -/
def squash_ws_aux : Bool → List Char → List Char
  | _, [] => []
  | prevWs, c :: rest =>
    if c.isWhitespace then
      if prevWs then squash_ws_aux true rest
      else ' ' :: squash_ws_aux true rest
    else c :: squash_ws_aux false rest

/-- Collapse every whitespace run to a single space. -/
def squash_ws (l : List Char) : List Char := squash_ws_aux false l

/-- `_clean`: NFKD-decompose and drop combining marks (the `nfkd`
parameter), lowercase, replace every character outside `[a-z0-9\s]` with a
space, collapse whitespace, strip. -/
def clean_str (nfkd : String → String) (s : String) : String :=
  let lowered := (nfkd s).toLower
  let replaced := String.mk (lowered.data.map (fun c =>
    if ('a' ≤ c ∧ c ≤ 'z') ∨ ('0' ≤ c ∧ c ≤ '9') ∨ c.isWhitespace then c else ' '))
  (String.mk (squash_ws replaced.data)).trim

/-! ## `_try_search_variants` and the resolver -/

/-- Python `s.split()`: split on whitespace runs, dropping empty pieces. -/
def py_split_ws (s : String) : List String :=
  (s.split Char.isWhitespace).filter (fun w => w ≠ "")

/-- `_try_search_variants`: the fixed search cascade, each step tried only
when everything before returned nothing, every request individually guarded
by `try/except`.  The only uncaught exception is the `IndexError` of
`(title or "").split()[0]` on a whitespace-only `title` (resp. `artist`),
modelled as `Except.error ()`. -/
def try_search_variants (E : Env) (mk title artist : String) (limit : Nat) :
    Except Unit (List Track) := do
  let r1 := match search_tracks_filtered E.cat mk title artist limit with
    | .ok l => l
    | .error _ => []
  let r2 := if r1 = [] then
      (let q := (title ++ " " ++ artist).trim
       if q ≠ "" then
         match search_tracks_free E.cat mk q limit with
         | .ok l => l
         | .error _ => []
       else [])
    else r1
  let r3 := if r2 = [] then
      match search_track E.cat mk title artist limit with
      | .ok l => l
      | .error _ => []
    else r2
  let r4 := if r3 = [] ∧ title ≠ "" then
      match search_track E.cat mk title "" limit with
      | .ok l => l
      | .error _ => []
    else r3
  let r5 := if r4 = [] ∧ artist ≠ "" then
      match search_track E.cat mk "" artist limit with
      | .ok l => l
      | .error _ => []
    else r4
  if r5 = [] then do
    let tFirst ← if title ≠ "" then
        match (py_split_ws title).head? with
        | some w => pure w
        | none => Except.error ()
      else pure ""
    let aFirst ← if artist ≠ "" then
        match (py_split_ws artist).head? with
        | some w => pure w
        | none => Except.error ()
      else pure ""
    if tFirst ≠ "" ∨ aFirst ≠ "" then
      pure (match search_track E.cat mk tFirst aFirst limit with
        | .ok l => l
        | .error _ => [])
    else pure []
  else pure r5

/-- The score the resolver assigns one candidate track:
`0.6 * similarity(artist, lead artist) + 0.4 * similarity(title, name)`
over `_clean`-normalized strings, a missing input field contributing 0. -/
def cand_score (E : Env) (titleClean artistClean : String) (tr : Track) : ℚ :=
  let trTitleClean := clean_str E.nfkd tr.tname
  let leadNameClean := match tr.tartists with
    | [] => ""
    | a :: _ => clean_str E.nfkd a.aname
  let scoreTitle := if titleClean ≠ "" then E.similarity titleClean trTitleClean else 0
  let scoreArtist := if artistClean ≠ "" then E.similarity artistClean leadNameClean else 0
  (6 / 10 : ℚ) * scoreArtist + (4 / 10 : ℚ) * scoreTitle

/-- The lead-artist id the resolver extracts from the winning candidate
(`aid or ""`). -/
def lead_artist_id (tr : Track) : String :=
  (tr.tartists.head?.map ArtistRef.aid).getD ""

/-- One step of the resolver's strict-maximum fold: a candidate replaces
the running best only when its score is strictly greater. -/
def best_step (E : Env) (titleClean artistClean : String)
    (acc : Option Track × ℚ) (tr : Track) : Option Track × ℚ :=
  let score := cand_score E titleClean artistClean tr
  if score > acc.2 then (some tr, score) else acc

/-- The strict-maximum fold of `resolve_favorite_to_artist`:
`best_score` starts at `-1.0`. -/
def best_candidate (E : Env) (titleClean artistClean : String)
    (candidates : List Track) : Option Track × ℚ :=
  candidates.foldl (best_step E titleClean artistClean) (none, -1)

/-- `resolve_favorite_to_artist`: score every candidate of the search
cascade, keep the strict maximum, give up (`none`) below the acceptance
threshold, otherwise fetch the full artist record (when the lead id is
non-empty) for the canonical name and genres. -/
def resolve_favorite_to_artist (E : Env) (mk title artist : String)
    (limit : Nat := 10) (accept : ℚ := 72) :
    Except Unit (Option (String × String × List String)) :=
  let titleClean := clean_str E.nfkd title
  let artistClean := clean_str E.nfkd artist
  match try_search_variants E mk title artist limit with
  | .error e => .error e
  | .ok candidates =>
    let best := best_candidate E titleClean artistClean candidates
    match best.1 with
    | none => .ok none
    | some bi =>
      if best.2 < accept then .ok none
      else
        let aid := lead_artist_id bi
        match (if aid ≠ "" then E.cat.artist_by_id aid else .ok emptyArtist) with
        | .error e => .error e
        | .ok adata =>
          let nm := adata.anameO.getD ""
          let nm := if nm ≠ "" then nm else (bi.tartists.head?.map ArtistRef.aname).getD ""
          .ok (some (aid, nm, adata.agenres))

/-- `resolve_artist_robust`: the threshold resolver, then a direct
artist-name search, then a title-only track search; any exception along the
way (the whole body is wrapped in `try/except`) yields `none`. -/
def resolve_artist_robust (E : Env) (mk title artist : String) :
    Option (String × String × List String) :=
  let body : Except Unit (Option (String × String × List String)) := do
    let r ← resolve_favorite_to_artist E mk title artist 10 72
    match r with
    | some x => pure (some x)
    | none =>
      if artist ≠ "" then do
        let items ← search_artist_by_name E.cat mk artist 3
        match items with
        | a :: _ => do
          let aid := a.aid
          let adata ← if aid ≠ "" then E.cat.artist_by_id aid else pure emptyArtist
          pure (some (aid, adata.anameO.getD (a.anameO.getD ""), adata.agenres))
        | [] => pure none
      else if title ≠ "" ∧ artist = "" then do
        let items ← search_track E.cat mk title "" 3
        match items with
        | tr :: _ =>
          let (_, _, paId, paName, _) := extract_track_core tr
          if paId ≠ "" then do
            let adata ← E.cat.artist_by_id paId
            pure (some (paId, adata.anameO.getD paName, adata.agenres))
          else pure none
        | [] => pure none
      else pure none
  match body with
  | .ok v => v
  | .error _ => none

/-! ## Standard mode: `recommend_from_favorites` -/

/-- `[(t.strip(), a.strip()) for (t, a) in favorites if t and a]`. -/
def cleaned_favorites (favorites : List (String × String)) : List (String × String) :=
  (favorites.filter (fun p => p.1 ≠ "" ∧ p.2 ≠ "")).map (fun p => (p.1.trim, p.2.trim))

/-- `fav_keys = {(t.lower(), a.lower()) for (t, a) in favorites}` (the
cleaned favorites), kept as a list used only through membership. -/
def fav_keys_of (favs : List (String × String)) : List (String × String) :=
  favs.map (fun p => (p.1.toLower, p.2.toLower))

/-- The resolution loop shared by both engines: resolve every favorite,
keep the results with a non-empty artist id. -/
def resolved_infos (E : Env) (mk : String) (favs : List (String × String)) :
    List (String × String × List String) :=
  favs.filterMap (fun p =>
    match resolve_artist_robust E mk p.1 p.2 with
    | some r => if r.1 ≠ "" then some r else none
    | none => none)

/-- The track loop of the per-artist own-top-tracks candidate list: skip a
track with an empty name or lead-artist name, skip a track whose
(lowercased) (name, lead artist) pair is a user favorite, otherwise emit
`"name — lead"` with the extracted url. -/
def own_tracks_item_scan (favKeys : List (String × String)) : List Track → List Item
  | [] => []
  | tr :: rest =>
    let tname := etc_tname tr
    let paName := etc_lead tr
    let turl := etc_url tr
    if tname = "" ∨ paName = "" then own_tracks_item_scan favKeys rest
    else if (tname.trim.toLower, paName.trim.toLower) ∈ favKeys then
      own_tracks_item_scan favKeys rest
    else (tname ++ " — " ++ paName, turl) :: own_tracks_item_scan favKeys rest

/-- One resolved artist's own-top-tracks candidate list (up to 10 tracks,
US-market fallback, exceptions yielding the empty list). -/
def per_artist_fav_list (E : Env) (mk : String) (favKeys : List (String × String))
    (info : String × String × List String) : List Item :=
  match top_tracks_with_us_fallback E.cat mk info.1 10 with
  | .error _ => []
  | .ok top => own_tracks_item_scan favKeys top

/-- The track loop over one related artist's top tracks (no favorite
exclusion here). -/
def rel_tracks_scan : List Track → List Item
  | [] => []
  | tr :: rest =>
    let tname := etc_tname tr
    let paName := etc_lead tr
    let turl := etc_url tr
    if tname = "" ∨ paName = "" then rel_tracks_scan rest
    else (tname ++ " — " ++ paName, turl) :: rel_tracks_scan rest

/-- One picked related artist's contribution: its top tracks (up to 5,
US-market fallback); the bare artist entry when there are none or the
fetch raises. -/
def related_one_pick (E : Env) (mk : String) (ar : Artist) : List Item :=
  let rname := ar.anameO.getD ""
  let urlArtist := if ar.aurl ≠ "" then ar.aurl
    else "https://open.spotify.com/artist/" ++ ar.aid
  match top_tracks_with_us_fallback E.cat mk ar.aid 5 with
  | .error _ => [(rname, urlArtist)]
  | .ok rtop => (if rtop = [] then [(rname, urlArtist)] else []) ++ rel_tracks_scan rtop

/-- One resolved artist's related-artists candidate list: fetch related
artists, shuffle them with the nonce-seeded generator, take 3, and gather
each pick's contribution (skipping picks with an empty id or name). -/
def related_tracks_for_artist (E : Env) (mk : String) (i : Nat) (aid : String) : List Item :=
  match E.cat.related_raw aid with
  | .error _ => []
  | .ok related =>
    let shuffled := E.sh.artist_mix 1 i related
    ((shuffled.take 3).filter
        (fun ar => ¬(ar.aid = "" ∨ ar.anameO.getD "" = ""))).flatMap
      (related_one_pick E mk)

/-- The final merge loop: alternate one element of `F`, one of `R`
(`F`'s element first while both remain), until both are exhausted. -/
def alt_merge : List α → List α → List α
  | [], r => r
  | f :: fs, r =>
    f :: (match r with
      | [] => alt_merge fs []
      | r0 :: rs => r0 :: alt_merge fs rs)

/-- The cross-genre fallback rows: take `n` artists of a genre search and
label them `"name (genre)"`, dropping entries without a name or url. -/
def genre_rows_items (rows : List Artist) (g : String) (n : Nat) : List Item :=
  (rows.take n).filterMap (fun ar =>
    let name := ar.anameO.getD ""
    let url := artist_url ar
    if name ≠ "" ∧ url ≠ "" then some (name ++ " (" ++ g ++ ")", url) else none)

/-- The fixed fallback genre list of the standard engine. -/
def default_genres_std : List String := ["indie", "electronic", "hip hop", "latin", "pop"]

/-- The cross-genre artist sample used when nothing resolves (`n = 3`) or
when the merge is empty (`n = 2`); a failing genre search contributes
nothing. -/
def cross_genre_sample (E : Env) (mk : String) (n : Nat) : List Item :=
  default_genres_std.flatMap (fun g =>
    match search_artists_by_genre E.cat mk g 10 0 with
    | .error _ => []
    | .ok rows => genre_rows_items rows g n)

/-- The composed shuffle salt
`f"{market}|{date_key}|{'|'.join(t+'—'+a)}|{regen_nonce}"`. -/
def salt_of (market dateKey : String) (favs : List (String × String)) (nonce : Nat) : String :=
  market ++ "|" ++ dateKey ++ "|" ++
    String.intercalate "|" (favs.map (fun p => p.1 ++ "—" ++ p.2)) ++ "|" ++ toString nonce

/-- The dedup-and-truncate loop of the standard engine: append an item when
its label was not seen yet (exact string match), stop as soon as the
output has reached `maxRecs` items. -/
def dedup_take (maxRecs : Nat) : List String → List Item → List Item → List Item
  | _, recs, [] => recs
  | seen, recs, (t, u) :: rest =>
    let hit := t ∈ seen
    let recs2 := if hit then recs else recs ++ [(t, u)]
    let seen2 := if hit then seen else t :: seen
    if maxRecs ≤ recs2.length then recs2
    else dedup_take maxRecs seen2 recs2 rest

/-- The mixed candidate list of the standard engine before shuffling:
per-artist own lists and related lists interleaved, then alternated. -/
def standard_mixed (E : Env) (mk : String) (favKeys : List (String × String))
    (infos : List (String × String × List String)) : List Item :=
  let favCombined := interleave_lists (infos.map (per_artist_fav_list E mk favKeys))
  let relCombined := interleave_lists
    (infos.enum.map (fun p => related_tracks_for_artist E mk p.1 p.2.1))
  alt_merge favCombined relCombined

/-- The mixed list after the empty-merge cross-genre backfill. -/
def standard_mixed_backfilled (E : Env) (mk : String) (favKeys : List (String × String))
    (infos : List (String × String × List String)) : List Item :=
  let mixed := standard_mixed E mk favKeys infos
  if mixed = [] then cross_genre_sample E mk 2 else mixed

/-- The stable-shuffled mixed list of a standard-mode run. -/
def standard_shuffled (E : Env) (market dateKey : String)
    (favsRaw : List (String × String)) (regenNonce : Nat) : List Item :=
  let favs := cleaned_favorites favsRaw
  let mk := norm_market market
  let favKeys := fav_keys_of favs
  let infos := resolved_infos E mk favs
  stable_shuffle E.hashS E.rb (standard_mixed_backfilled E mk favKeys infos)
    (salt_of market dateKey favs regenNonce)

/-- `recommend_from_favorites` (standard mode).  `dateKey` stands for
`datetime.utcnow().strftime("%Y%m%d")`; `regenNonce` seeds both the
related-artist sampling generator (through `Env.sh`) and the salt. -/
def recommend_from_favorites (E : Env) (market dateKey : String)
    (favsRaw : List (String × String)) (maxRecs : Nat := 3) (regenNonce : Nat := 0) :
    List Item :=
  let favs := cleaned_favorites favsRaw
  let mk := norm_market market
  let infos := resolved_infos E mk favs
  if infos = [] then
    let mixed := cross_genre_sample E mk 3
    if mixed ≠ [] then mixed.take maxRecs
    else [("Discover on Spotify", "https://open.spotify.com/explore")]
  else
    let ms := standard_shuffled E market dateKey favsRaw regenNonce
    let recs := dedup_take maxRecs [] [] ms
    if recs = [] then
      if ms ≠ [] then ms.take maxRecs
      else [("Explore Spotify", "https://open.spotify.com/explore")]
    else recs

/-! ## Niche mode: `build_recommendation_buckets` -/

/-- The five fixed buckets of niche mode. -/
structure Buckets where
  hidden_gems : List Item
  may_know : List Item
  discover : List Item
  genre_songs : List Item
  rising : List Item
deriving DecidableEq

/-- Placeholder of the hidden-gems bucket and the empty-result standard
fallback. -/
def explore_placeholder : Item := ("Explore Spotify", "https://open.spotify.com/explore")

/-- Placeholder of the songs-from-genres and rising-stars buckets. -/
def discover_placeholder : Item := ("Discover on Spotify", "https://open.spotify.com/explore")

/-- Placeholder inserted when both artist buckets would be empty. -/
def explore_artists_item : Item := ("Explore artists", "https://open.spotify.com/genre")

/-- Placeholder-then-truncate pattern closing three of the buckets. -/
def finalize_bucket (placeholder : Item) (cap : Nat) (l : List Item) : List Item :=
  (if l = [] then [placeholder] else l).take cap

/-- The popularity-filtered pass of the hidden-gems track loop: keep tracks
with a name, a url, and popularity at most the ceiling; the lead-artist
name falls back to the resolved artist name. -/
def hidden_filter_scan (trackPopMax : Int) (aname : String) : List Track → List Item
  | [] => []
  | tr :: rest =>
    let tname := tr.tname
    let popularity := tr.tpop.getD 50
    let paName := match tr.tartists with
      | [] => aname
      | a :: _ => a.aname
    let turl := tr.turl
    if tname ≠ "" ∧ turl ≠ "" ∧ popularity ≤ trackPopMax then
      (tname ++ " — " ++ paName, turl) :: hidden_filter_scan trackPopMax aname rest
    else hidden_filter_scan trackPopMax aname rest

/-- The unfiltered second pass run when the popularity filter empties the
per-artist list. -/
def hidden_unfiltered_scan (aname : String) : List Track → List Item
  | [] => []
  | tr :: rest =>
    let tname := tr.tname
    let paName := match tr.tartists with
      | [] => aname
      | a :: _ => a.aname
    let turl := tr.turl
    if tname ≠ "" ∧ turl ≠ "" then
      (tname ++ " — " ++ paName, turl) :: hidden_unfiltered_scan aname rest
    else hidden_unfiltered_scan aname rest

/-- One resolved artist's hidden-gems list: fetch top tracks (US fallback),
shuffle, popularity-filter, fall back to the unfiltered pass; a raised
fetch yields the empty list. -/
def hidden_for_artist (E : Env) (mk : String) (trackPopMax : Int) (i : Nat)
    (info : String × String × List String) : List Item :=
  match top_tracks_with_us_fallback E.cat mk info.1 10 with
  | .error _ => []
  | .ok top =>
    let top := E.sh.track_mix 0 i top
    let lst := hidden_filter_scan trackPopMax info.2.1 top
    if lst = [] then hidden_unfiltered_scan info.2.1 (top.take 10) else lst

/-- The "Hidden gems from your favorite artists" bucket. -/
def hidden_gems_bucket (E : Env) (market : String) (favsRaw : List (String × String))
    (trackPopMax : Int) (perBucket : Nat) : List Item :=
  let mk := norm_market market
  let favs := cleaned_favorites favsRaw
  let infos := resolved_infos E mk favs
  let perArtist := infos.enum.map (fun p => hidden_for_artist E mk trackPopMax p.1 p.2)
  finalize_bucket explore_placeholder (max 2 perBucket) (interleave_lists perArtist)

/-- Collect `(name, url, popularity)` entries from a list of artists,
dropping ones without a name or url. -/
def related_entries (ars : List Artist) : List (String × String × Int) :=
  ars.filterMap (fun ar =>
    let name := ar.anameO.getD ""
    let pop := ar.apop.getD 50
    let url := artist_url ar
    if name ≠ "" ∧ url ≠ "" then some (name, url, pop) else none)

/-- The related-artist pool of the artist buckets: for every resolved
favorite, fetch its related artists (a raised fetch contributes nothing),
shuffle them, and collect the entries. -/
def related_all (E : Env) (infos : List (String × String × List String)) :
    List (String × String × Int) :=
  infos.enum.flatMap (fun p =>
    match E.cat.related_raw p.2.1 with
    | .error _ => []
    | .ok rel => related_entries (E.sh.artist_mix 2 p.1 rel))

/-- The default genre set of the artist-bucket backfills. -/
def default_genres_bf : List String := ["indie", "electronic", "hip hop", "pop", "latin"]

/-- The thin-pool backfill of the artist buckets: when the related pool is
smaller than the minimum-artists guarantee, sample up to 10 artists from
each of up to 5 union genres (default genres when none are known). -/
def related_backfill (E : Env) (mk : String) (infos : List (String × String × List String))
    (base : List (String × String × Int)) (minArtists : Nat) :
    List (String × String × Int) :=
  if base.length < minArtists then
    let collected := infos.flatMap (fun info => info.2.2)
    let ug := E.pyset (if collected = [] then default_genres_bf else collected)
    base ++ (ug.take 5).enum.flatMap (fun p =>
      match search_artists_by_genre E.cat mk p.2 30 0 with
      | .error _ => []
      | .ok items => related_entries ((E.sh.artist_mix 3 p.1 items).take 10))
  else base

/-- Pure labeling of the pool: popularity at least 60 goes to
"Artists you may know", the rest to "Discover". -/
def split_by_pop (entries : List (String × String × Int)) : List Item × List Item :=
  (entries.filterMap (fun e => if 60 ≤ e.2.2 then some (e.1, e.2.1) else none),
   entries.filterMap (fun e => if 60 ≤ e.2.2 then none else some (e.1, e.2.1)))

/-- The item loop of `_ensure_min_discover` over one genre's artists:
append an artist whose stripped name and url are non-empty and whose
lowercased name is not excluded, extend the exclusion set, and signal
completion (`true`) as soon as the discover list reaches `minCount`. -/
def emd_items (minCount : Nat) : List Artist → List Item → List String →
    List Item × List String × Bool
  | [], disc, excl => (disc, excl, false)
  | ar :: rest, disc, excl =>
    let name := (ar.anameO.getD "").trim
    let url := artist_url ar
    if name = "" ∨ url = "" then emd_items minCount rest disc excl
    else if name.toLower ∈ excl then emd_items minCount rest disc excl
    else
      let disc2 := disc ++ [(name, url)]
      let excl2 := excl ++ [name.toLower]
      if minCount ≤ disc2.length then (disc2, excl2, true)
      else emd_items minCount rest disc2 excl2

/-- The genre loop of `_ensure_min_discover`: a raised genre search moves
on to the next genre; the `true` completion signal exits all loops. -/
def emd_genres (E : Env) (mk : String) (minCount : Nat) :
    List (Nat × String) → List Item → List String → List Item
  | [], disc, _ => disc
  | (gi, g) :: gs, disc, excl =>
    match search_artists_by_genre E.cat mk g 50 0 with
    | .error _ => emd_genres E mk minCount gs disc excl
    | .ok items =>
      match emd_items minCount (E.sh.artist_mix 4 gi items) disc excl with
      | (disc2, excl2, done) =>
        if done then disc2 else emd_genres E mk minCount gs disc2 excl2

/-- `_ensure_min_discover`: pad "Discover" to at least `minCount` entries
by extra genre sampling, excluding the favorites' artist names and every
name already in either artist list. -/
def ensure_min_discover (E : Env) (mk : String) (favs : List (String × String))
    (infos : List (String × String × List String))
    (mayKnow disc : List Item) (minCount : Nat := 2) : List Item :=
  if minCount ≤ disc.length then disc
  else
    let excl := (favs.map (fun p => p.2.toLower)) ++ (disc.map (fun p => p.1.toLower)) ++
      (mayKnow.map (fun p => p.1.toLower))
    let collected := infos.flatMap (fun info => info.2.2)
    let ug := E.pyset (if collected = [] then default_genres_bf else collected)
    emd_genres E mk minCount ((ug.take 5).enum) disc excl

/-- The "Artists you may know" / "Discover" pair: pool, backfill, labeling,
per-list dedup, minimum-Discover pass, per-bucket trims, and the joint
placeholder when both lists end up empty. -/
def may_know_discover (E : Env) (market : String) (favsRaw : List (String × String))
    (perBucket minArtists : Nat) : List Item × List Item :=
  let mk := norm_market market
  let favs := cleaned_favorites favsRaw
  let infos := resolved_infos E mk favs
  let relAll := related_backfill E mk infos (related_all E infos) minArtists
  let pair := split_by_pop relAll
  let mayKnow := dedupe pair.1
  let disc := dedupe pair.2
  let disc2 := ensure_min_discover E mk favs infos mayKnow disc 2
  let mayKnow2 := mayKnow.take (max 2 perBucket)
  let disc3 := disc2.take (max 2 perBucket)
  if mayKnow2 = [] ∧ disc3 = [] then ([explore_artists_item], disc3)
  else (mayKnow2, disc3)

/-- Genre collection of `_backfill_genres_from_related`: the genres of all
related artists of the resolved favorites, non-empty strings only, a
raised fetch contributing nothing. -/
def backfill_genres_from_related (E : Env) (infos : List (String × String × List String)) :
    List String :=
  infos.flatMap (fun info =>
    match E.cat.related_raw info.1 with
    | .error _ => []
    | .ok rel => rel.flatMap (fun ar => ar.agenres.filter (fun g => g ≠ "")))

/-- Fixed default genre pool of the track/rising genre buckets. -/
def default_genres_songs : List String :=
  ["indie", "alternative", "singer-songwriter", "electronic", "hip hop", "afrobeats", "latin"]

/-- `genre_pool`: the favorites' union genres, else genres backfilled from
related artists, else the fixed default pool; ordered by the ambient
`set` iteration order `pyset`. -/
def genre_pool_of (E : Env) (infos : List (String × String × List String)) : List String :=
  let l1 := infos.flatMap (fun info => info.2.2)
  let l2 := if l1 = [] then backfill_genres_from_related E infos else l1
  let l3 := if l2 = [] then default_genres_songs else l2
  E.pyset l3

/-- The inner track loop of the songs-from-genres bucket: skip tracks with
an empty name, lead name or url, skip exact favorite (title, artist) pairs,
append the rest, and stop the inner loop at 8 accumulated items. -/
def songs_scan_tracks (favKeys : List (String × String)) :
    List Item → List Track → List Item
  | lst, [] => lst
  | lst, tr :: rest =>
    let tname := etc_tname tr
    let paName := etc_lead tr
    let turl := etc_url tr
    if tname = "" ∨ paName = "" ∨ turl = "" then songs_scan_tracks favKeys lst rest
    else if (tname.trim.toLower, paName.trim.toLower) ∈ favKeys then
      songs_scan_tracks favKeys lst rest
    else
      let lst2 := lst ++ [(tname ++ " — " ++ paName, turl)]
      if 8 ≤ lst2.length then lst2 else songs_scan_tracks favKeys lst2 rest

/-- The artist loop of the songs-from-genres bucket: skip artists without
an id or name, skip input favorites (by id or lowercased name), fetch each
artist's top 5 tracks (US fallback, a raised fetch skipping the artist),
shuffle, run the track loop, and stop at 12 accumulated items. -/
def songs_scan_artists (E : Env) (mk : String) (favKeys : List (String × String))
    (favIds favNamesL : List String) (gi : Nat) :
    Nat → List Item → List Artist → List Item
  | _, lst, [] => lst
  | ai, lst, ar :: rest =>
    let aid := ar.aid
    let aname := ar.anameO.getD ""
    if aid = "" ∨ aname = "" then
      songs_scan_artists E mk favKeys favIds favNamesL gi (ai + 1) lst rest
    else if aid ∈ favIds ∨ aname.toLower ∈ favNamesL then
      songs_scan_artists E mk favKeys favIds favNamesL gi (ai + 1) lst rest
    else
      match top_tracks_with_us_fallback E.cat mk aid 5 with
      | .error _ => songs_scan_artists E mk favKeys favIds favNamesL gi (ai + 1) lst rest
      | .ok top =>
        let top := E.sh.songs_top_mix gi ai top
        let lst2 := songs_scan_tracks favKeys lst top
        if 12 ≤ lst2.length then lst2
        else songs_scan_artists E mk favKeys favIds favNamesL gi (ai + 1) lst2 rest

/-- One genre's contribution to the songs bucket: search its artists (a
raised search contributes nothing), shuffle, and run the artist loop. -/
def songs_for_genre (E : Env) (mk : String) (favKeys : List (String × String))
    (favIds favNamesL : List String) (gi : Nat) (genre : String) : List Item :=
  match search_artists_by_genre E.cat mk genre 30 0 with
  | .error _ => []
  | .ok arts =>
    songs_scan_artists E mk favKeys favIds favNamesL gi 0 [] (E.sh.artist_mix 5 gi arts)

/-- The "Songs from your genres (not your input artists)" bucket. -/
def genre_songs_bucket (E : Env) (market : String) (favsRaw : List (String × String))
    (perBucket : Nat) : List Item :=
  let mk := norm_market market
  let favs := cleaned_favorites favsRaw
  let favKeys := fav_keys_of favs
  let favNamesL := favs.map (fun p => p.2.toLower)
  let infos := resolved_infos E mk favs
  let favIds := infos.map (fun i => i.1)
  let pool := genre_pool_of E infos
  let perGenre := (pool.take 3).enum.map
    (fun p => songs_for_genre E mk favKeys favIds favNamesL p.1 p.2)
  finalize_bucket discover_placeholder (max 2 perBucket) (interleave_lists perGenre)

/-- One genre's contribution to the rising-stars bucket: up to 10 sampled
artists labeled `"name (genre)"`. -/
def rising_for_genre (E : Env) (mk : String) (gi : Nat) (genre : String) : List Item :=
  match search_artists_by_genre E.cat mk genre 30 0 with
  | .error _ => []
  | .ok items =>
    ((E.sh.artist_mix 6 gi items).take 10).filterMap (fun ar =>
      let name := ar.anameO.getD ""
      let url := artist_url ar
      if name ≠ "" ∧ url ≠ "" then some (name ++ " (" ++ genre ++ ")", url) else none)

/-- The "Rising stars in your genres" bucket. -/
def rising_bucket (E : Env) (market : String) (favsRaw : List (String × String))
    (perBucket minArtists : Nat) : List Item :=
  let mk := norm_market market
  let favs := cleaned_favorites favsRaw
  let infos := resolved_infos E mk favs
  let pool := genre_pool_of E infos
  let perGenre := (pool.take 3).enum.map (fun p => rising_for_genre E mk p.1 p.2)
  finalize_bucket discover_placeholder (max perBucket minArtists) (interleave_lists perGenre)

/-- `build_recommendation_buckets` (niche mode).  The `regen_nonce`
argument of the Python function only seeds the shared generator, which is
modelled by `Env.sh`. -/
def build_recommendation_buckets (E : Env) (market : String)
    (favsRaw : List (String × String)) (trackPopMax : Int := 35)
    (perBucket : Nat := 5) (minArtists : Nat := 2) : Buckets :=
  let pair := may_know_discover E market favsRaw perBucket minArtists
  { hidden_gems := hidden_gems_bucket E market favsRaw trackPopMax perBucket
    may_know := pair.1
    discover := pair.2
    genre_songs := genre_songs_bucket E market favsRaw perBucket
    rising := rising_bucket E market favsRaw perBucket minArtists }

/-! ## Transport layer: `_ensure_token` and `_api_get`

The two methods are modelled over an explicit token-cache state.
`tokenEndpoint` is the outcome of a POST to the token url; `respond` is the
outcome of the GET request, indexed by the bearer token used, the path, and
an attempt counter (so that a hypothetical retry would be visible as a
lookup at attempt index 1). -/

/-- Errors the server can signal for one request. -/
inductive SpErr where
  | rateLimited (retryAfter : Nat)
  | unauthorized
  | transport
deriving DecidableEq

/-- A successful token-endpoint payload. -/
structure TokenPayload where
  access_token : String
  expires_in : ℚ
deriving DecidableEq

/-- The client's token cache (`_access_token`, `_expires_at`). -/
structure ClientState where
  access_token : Option String
  expires_at : ℚ
deriving DecidableEq

/-- `_fetch_access_token`: store the new token and
`time.time() + expires_in * 0.95`. -/
def fetch_access_token (now : ℚ) (tokenEndpoint : Except SpErr TokenPayload)
    (_st : ClientState) : Except SpErr ClientState :=
  match tokenEndpoint with
  | .error e => .error e
  | .ok p => .ok { access_token := some p.access_token,
                   expires_at := now + p.expires_in * (95 / 100) }

/-- Python truthiness of `not self._access_token`. -/
def token_missing (t : Option String) : Bool :=
  match t with
  | none => true
  | some s => s = ""

/-- `_ensure_token`: fetch a token when none is cached or the cached one
has expired (`time.time() >= self._expires_at`), else return the cache. -/
def ensure_token (now : ℚ) (tokenEndpoint : Except SpErr TokenPayload)
    (st : ClientState) : Except SpErr (String × ClientState) :=
  if token_missing st.access_token ∨ st.expires_at ≤ now then
    match fetch_access_token now tokenEndpoint st with
    | .error e => .error e
    | .ok st2 => .ok (st2.access_token.getD "", st2)
  else .ok (st.access_token.getD "", st)

/-- `_api_get`: ensure a token, then issue a single GET; the response is
returned on success and any error propagates unchanged — there is no retry
of any kind, so only attempt index 0 of `respond` is ever consulted. -/
def api_get (now : ℚ) (tokenEndpoint : Except SpErr TokenPayload)
    (respond : String → String → Nat → Except SpErr β)
    (st : ClientState) (path : String) : Except SpErr (β × ClientState) :=
  match ensure_token now tokenEndpoint st with
  | .error e => .error e
  | .ok (tok, st2) =>
    match respond tok path 0 with
    | .error e => .error e
    | .ok j => .ok (j, st2)

/-! ## Concrete environments

Small concrete catalogs used to evaluate the engine on explicit inputs.
Every list the engine shuffles in these runs has at most one element, so
the identity shuffler below coincides with any permutation the real
nonce-seeded generator could produce, and each `pyset` argument is a
duplicate-free singleton, so the identity is the set-iteration order. -/

/-- Identity at every shuffle site. -/
def id_shuffler : Shuffler :=
  { track_mix := fun _ _ l => l
    artist_mix := fun _ _ l => l
    songs_top_mix := fun _ _ l => l }

/-- An environment over a given catalog with a constant similarity score,
identity NFKD (the strings used are ASCII) and zero hash/random streams. -/
def base_env (C : Catalog) (sim : ℚ) : Env :=
  { cat := C
    sh := id_shuffler
    nfkd := id
    similarity := fun _ _ => sim
    pyset := id
    hashS := fun _ => 0
    rb := fun _ _ => 0 }

/-- The single search candidate of the `envB` runs. -/
def trackB : Track :=
  { tid := "t1", tname := "Song A", tartists := [{ aid := "B1", aname := "Artist B" }],
    tpop := some 50, turl := "u1" }

/-- The resolved artist of the `envB` runs. -/
def artistB : Artist :=
  { aid := "B1", anameO := some "Artist B", agenres := ["g"], apop := some 50, aurl := "ub" }

/-- A related artist with popularity 70 (labelled "may know"). -/
def artistC : Artist :=
  { aid := "C1", anameO := some "maycee", agenres := [], apop := some 70, aurl := "uc" }

/-- Catalog where the favorite resolves to `artistB`, whose one related
artist has popularity 70, while every genre search raises. -/
def cat_b : Catalog :=
  { search_track_q := fun _ _ _ _ => .ok []
    search_filtered_quoted := fun _ _ _ _ => .ok [trackB]
    search_filtered_plain := fun _ _ _ _ => .ok []
    search_free_q := fun _ _ _ => .ok []
    search_artist_q := fun _ _ _ => .ok []
    artist_by_id := fun _ => .ok artistB
    top_tracks_raw := fun _ _ => .ok []
    related_raw := fun aid => if aid = "B1" then .ok [artistC] else .ok []
    genre_artists_raw := fun _ _ _ _ => .error () }

/-- Environment of the C3/C8 counterexamples. -/
def env_b : Env := base_env cat_b 100

/-- Environment of the C7 witness for the below-threshold branch: same
catalog, but every similarity score is 0. -/
def env_b0 : Env := base_env cat_b 0

/-- The user favorite of the C1 counterexample run. -/
def trackW : Track :=
  { tid := "t1", tname := "Blinding Lights",
    tartists := [{ aid := "W1", aname := "The Weeknd" }], tpop := some 90, turl := "u1" }

/-- A low-popularity top track identical to the user favorite. -/
def trackW2 : Track :=
  { tid := "t2", tname := "Blinding Lights",
    tartists := [{ aid := "W1", aname := "The Weeknd" }], tpop := some 10, turl := "u2" }

/-- The resolved artist of the C1 counterexample run. -/
def artistW : Artist :=
  { aid := "W1", anameO := some "The Weeknd", agenres := ["pop"], apop := some 95,
    aurl := "uw" }

/-- Catalog where the favorite artist's top tracks contain the favorite
itself with popularity 10. -/
def cat_w : Catalog :=
  { search_track_q := fun _ _ _ _ => .ok []
    search_filtered_quoted := fun _ _ _ _ => .ok [trackW]
    search_filtered_plain := fun _ _ _ _ => .ok []
    search_free_q := fun _ _ _ => .ok []
    search_artist_q := fun _ _ _ => .ok []
    artist_by_id := fun _ => .ok artistW
    top_tracks_raw := fun _ aid => if aid = "W1" then .ok [trackW2] else .ok []
    related_raw := fun _ => .ok []
    genre_artists_raw := fun _ _ _ _ => .error () }

/-- Environment of the C1 counterexample. -/
def env_w : Env := base_env cat_w 100

/-- A genre-search artist with popularity 10 (labelled "discover"). -/
def artistD : Artist :=
  { aid := "D1", anameO := some "Dee", agenres := [], apop := some 10, aurl := "ud" }

/-- The top track of `artistD`. -/
def trackD : Track :=
  { tid := "t3", tname := "Nice Tune", tartists := [{ aid := "D1", aname := "Dee" }],
    tpop := some 20, turl := "u3" }

/-- Catalog with no related artists but a productive genre search, giving
a non-trivial songs-from-genres bucket. -/
def cat_r : Catalog :=
  { search_track_q := fun _ _ _ _ => .ok []
    search_filtered_quoted := fun _ _ _ _ => .ok [trackB]
    search_filtered_plain := fun _ _ _ _ => .ok []
    search_free_q := fun _ _ _ => .ok []
    search_artist_q := fun _ _ _ => .ok []
    artist_by_id := fun _ => .ok artistB
    top_tracks_raw := fun _ aid => if aid = "D1" then .ok [trackD] else .ok []
    related_raw := fun _ => .ok []
    genre_artists_raw := fun _ g _ _ => if g = "g" then .ok [artistD] else .ok [] }

/-- Environment of the C1 and C3 witnesses. -/
def env_r : Env := base_env cat_r 100

/-- The resolution candidate of the C4 runs. -/
def trackS0 : Track :=
  { tid := "t1", tname := "s", tartists := [{ aid := "B1", aname := "a" }],
    tpop := some 50, turl := "u0" }

/-- Top track labelled `"Song — B"`. -/
def trackS1 : Track :=
  { tid := "x1", tname := "Song", tartists := [{ aid := "Z1", aname := "B" }],
    tpop := some 50, turl := "v1" }

/-- Top track labelled `"SONG — B"`: same label as `trackS1` up to case. -/
def trackS2 : Track :=
  { tid := "x2", tname := "SONG", tartists := [{ aid := "Z1", aname := "B" }],
    tpop := some 50, turl := "v2" }

/-- Catalog whose resolved artist has two top tracks whose labels differ
only by letter case. -/
def cat_s : Catalog :=
  { search_track_q := fun _ _ _ _ => .ok []
    search_filtered_quoted := fun _ _ _ _ => .ok [trackS0]
    search_filtered_plain := fun _ _ _ _ => .ok []
    search_free_q := fun _ _ _ => .ok []
    search_artist_q := fun _ _ _ => .ok []
    artist_by_id := fun _ => .ok artistB
    top_tracks_raw := fun _ aid => if aid = "B1" then .ok [trackS1, trackS2] else .ok []
    related_raw := fun _ => .ok []
    genre_artists_raw := fun _ _ _ _ => .error () }

/-- Environment of the C4 counterexample and witness. -/
def env_s : Env := base_env cat_s 100

/-- A transport whose first attempt is rate-limited and whose second
attempt would succeed. -/
def rate_limited_then_ok : String → String → Nat → Except SpErr Nat :=
  fun _ _ n => if n = 0 then .error (.rateLimited 1) else .ok 7

/-- A client state with a valid cached token (expires at time 100). -/
def cached_state : ClientState := { access_token := some "tok", expires_at := 100 }

/-! ## Helper lemmas: swaps and the shuffle are permutations -/

theorem cons_set_perm {α : Type u} :
    ∀ (t : List α) (k : Nat) (a b : α), t.get? k = some b →
      List.Perm (b :: t.set k a) (a :: t) := by
  intro t
  induction t with
  | nil => intro k a b h; simp at h
  | cons x t' ih =>
    intro k a b h
    cases k with
    | zero =>
      simp only [List.get?] at h
      cases h
      show List.Perm (x :: a :: t') (a :: x :: t')
      exact List.Perm.swap a x t'
    | succ m =>
      simp only [List.get?] at h
      show List.Perm (b :: x :: t'.set m a) (a :: x :: t')
      have h1 : List.Perm (b :: x :: t'.set m a) (x :: b :: t'.set m a) :=
        List.Perm.swap x b _
      have h2 : List.Perm (x :: b :: t'.set m a) (x :: a :: t') :=
        List.Perm.cons x (ih m a b h)
      have h3 : List.Perm (x :: a :: t') (a :: x :: t') := List.Perm.swap a x t'
      exact h1.trans (h2.trans h3)

theorem set_set_swap_perm {α : Type u} :
    ∀ (l : List α) (i j : Nat) (a b : α), l.get? i = some a → l.get? j = some b →
      List.Perm ((l.set i b).set j a) l := by
  intro l
  induction l with
  | nil => intro i j a b h1 _; simp at h1
  | cons c t ih =>
    intro i j a b h1 h2
    cases i with
    | zero =>
      simp only [List.get?] at h1
      cases h1
      cases j with
      | zero =>
        simp only [List.get?] at h2
        cases h2
        simp
      | succ m =>
        simp only [List.get?] at h2
        show List.Perm (b :: t.set m c) (c :: t)
        exact cons_set_perm t m c b h2
    | succ k =>
      simp only [List.get?] at h1
      cases j with
      | zero =>
        simp only [List.get?] at h2
        cases h2
        show List.Perm (a :: t.set k c) (c :: t)
        exact cons_set_perm t k c a h1
      | succ m =>
        simp only [List.get?] at h2
        show List.Perm (c :: (t.set k b).set m a) (c :: t)
        exact List.Perm.cons c (ih k m a b h1 h2)

theorem list_swap_perm {α : Type u} (l : List α) (i j : Nat) :
    List.Perm (list_swap l i j) l := by
  unfold list_swap
  split
  · next a b h1 h2 => exact set_set_swap_perm l i j a b h1 h2
  · exact List.Perm.refl l

theorem py_shuffle_aux_perm {α : Type u} (rb : Nat → Nat) :
    ∀ (k : Nat) (l : List α), List.Perm (py_shuffle_aux rb k l) l := by
  intro k
  induction k with
  | zero => intro l; exact List.Perm.refl l
  | succ k ih =>
    intro l
    exact (ih _).trans (list_swap_perm l (k + 1) (rb (k + 2) % (k + 2)))

theorem py_shuffle_perm {α : Type u} (rb : Nat → Nat) (l : List α) :
    List.Perm (py_shuffle rb l) l :=
  py_shuffle_aux_perm rb (l.length - 1) l

/-! ## Helper lemmas: interleaving -/

theorem get_zero_eq_head {α : Type u} (l : List α) : l.get? 0 = l.head? := by
  cases l <;> rfl

theorem heads_len {α : Type u} :
    ∀ (L : List (List α)),
      (L.filterMap List.head?).length = (L.filter (fun l => !l.isEmpty)).length := by
  intro L
  induction L with
  | nil => rfl
  | cons l L ih =>
    cases l with
    | nil => simpa using ih
    | cons a t => simpa using ih

theorem all_nil_of_fold_max_zero {α : Type u} :
    ∀ (L : List (List α)), (L.map List.length).foldr max 0 = 0 →
      ∀ l ∈ L, l = [] := by
  intro L
  induction L with
  | nil => intro _ l hl; simp at hl
  | cons x L ih =>
    intro h l hl
    simp only [List.map_cons, List.foldr_cons, Nat.max_eq_zero_iff] at h
    rcases List.mem_cons.mp hl with rfl | hl
    · exact List.length_eq_zero.mp h.1
    · exact ih h.2 l hl

theorem interleave_take_heads {α : Type u} (lists : List (List α)) :
    (interleave_lists lists).take ((lists.filter (fun l => !l.isEmpty)).length)
      = lists.filterMap List.head? := by
  unfold interleave_lists
  cases hM : (lists.map List.length).foldr max 0 with
  | zero =>
    have hnil : ∀ l ∈ lists, l = [] := all_nil_of_fold_max_zero lists hM
    have h1 : lists.filterMap List.head? = [] := by
      rw [List.filterMap_eq_nil_iff]
      intro l hl
      rw [hnil l hl]
      rfl
    simp [hM, h1]
  | succ n =>
    rw [List.range_succ_eq_map, List.flatMap_cons]
    have h0 : lists.filterMap (fun lst => lst.get? 0) = lists.filterMap List.head? := by
      apply List.filterMap_congr
      intro l _
      exact get_zero_eq_head l
    rw [h0, ← heads_len]
    exact List.take_left _ _

/-! ## Helper lemmas: favorite exclusion -/

/-- A label provably of the shape `"title — lead"` whose (trimmed,
lowercased) pair is not a user favorite. -/
def excluded_label (favKeys : List (String × String)) (x : Item) : Prop :=
  ∃ tn pa, x.1 = tn ++ " — " ++ pa ∧ (tn.trim.toLower, pa.trim.toLower) ∉ favKeys

theorem interleave_mem {α : Type u} {x : α} (lists : List (List α)) :
    x ∈ interleave_lists lists → ∃ l ∈ lists, x ∈ l := by
  intro hx
  unfold interleave_lists at hx
  rw [List.mem_flatMap] at hx
  obtain ⟨i, _, hx⟩ := hx
  rw [List.mem_filterMap] at hx
  obtain ⟨l, hl, hget⟩ := hx
  exact ⟨l, hl, List.get?_mem hget⟩

theorem songs_scan_tracks_mem (favKeys : List (String × String)) :
    ∀ (ts : List Track) (lst : List Item) (x : Item),
      x ∈ songs_scan_tracks favKeys lst ts → x ∈ lst ∨ excluded_label favKeys x := by
  intro ts
  induction ts with
  | nil => intro lst x hx; exact Or.inl hx
  | cons tr rest ih =>
    intro lst x hx
    simp only [songs_scan_tracks] at hx
    split_ifs at hx with h1 h2 h3
    · exact ih lst x hx
    · exact ih lst x hx
    · rcases List.mem_append.mp hx with hx1 | hx2
      · exact Or.inl hx1
      · refine Or.inr ⟨etc_tname tr, etc_lead tr, ?_, h2⟩
        simp at hx2
        rw [hx2]
    · rcases ih _ x hx with hx1 | hx2
      · rcases List.mem_append.mp hx1 with hy1 | hy2
        · exact Or.inl hy1
        · refine Or.inr ⟨etc_tname tr, etc_lead tr, ?_, h2⟩
          simp at hy2
          rw [hy2]
      · exact Or.inr hx2

theorem songs_scan_artists_mem (E : Env) (mk : String)
    (favKeys : List (String × String)) (favIds favNamesL : List String) (gi : Nat) :
    ∀ (ars : List Artist) (ai : Nat) (lst : List Item) (x : Item),
      x ∈ songs_scan_artists E mk favKeys favIds favNamesL gi ai lst ars →
      x ∈ lst ∨ excluded_label favKeys x := by
  intro ars
  induction ars with
  | nil => intro ai lst x hx; exact Or.inl hx
  | cons ar rest ih =>
    intro ai lst x hx
    simp only [songs_scan_artists] at hx
    split_ifs at hx with h1 h2
    · exact ih _ lst x hx
    · exact ih _ lst x hx
    · rcases hfetch : top_tracks_with_us_fallback E.cat mk ar.aid 5 with e | top
      · rw [hfetch] at hx
        exact ih _ lst x hx
      · rw [hfetch] at hx
        simp only [] at hx
        split_ifs at hx with h3
        · exact songs_scan_tracks_mem favKeys _ lst x hx
        · rcases ih _ _ x hx with hx1 | hx2
          · exact songs_scan_tracks_mem favKeys _ lst x hx1
          · exact Or.inr hx2

theorem songs_for_genre_mem (E : Env) (mk : String)
    (favKeys : List (String × String)) (favIds favNamesL : List String)
    (gi : Nat) (genre : String) (x : Item) :
    x ∈ songs_for_genre E mk favKeys favIds favNamesL gi genre →
    excluded_label favKeys x := by
  intro hx
  unfold songs_for_genre at hx
  rcases hs : search_artists_by_genre E.cat mk genre 30 0 with e | arts
  · rw [hs] at hx
    simp at hx
  · rw [hs] at hx
    rcases songs_scan_artists_mem E mk favKeys favIds favNamesL gi _ 0 [] x hx with h | h
    · simp at h
    · exact h

theorem own_tracks_item_scan_mem (favKeys : List (String × String)) :
    ∀ (ts : List Track) (x : Item),
      x ∈ own_tracks_item_scan favKeys ts → excluded_label favKeys x := by
  intro ts
  induction ts with
  | nil => intro x hx; simp [own_tracks_item_scan] at hx
  | cons tr rest ih =>
    intro x hx
    simp only [own_tracks_item_scan] at hx
    split_ifs at hx with h1 h2
    · exact ih x hx
    · exact ih x hx
    · rcases List.mem_cons.mp hx with rfl | hx2
      · exact ⟨etc_tname tr, etc_lead tr, rfl, h2⟩
      · exact ih x hx2

theorem per_artist_fav_list_mem (E : Env) (mk : String)
    (favKeys : List (String × String)) (info : String × String × List String) (x : Item) :
    x ∈ per_artist_fav_list E mk favKeys info → excluded_label favKeys x := by
  intro hx
  unfold per_artist_fav_list at hx
  rcases hf : top_tracks_with_us_fallback E.cat mk info.1 10 with e | top
  · rw [hf] at hx; simp at hx
  · rw [hf] at hx
    exact own_tracks_item_scan_mem favKeys top x hx

theorem genre_songs_bucket_mem (E : Env) (market : String)
    (favsRaw : List (String × String)) (perBucket : Nat) (x : Item) :
    x ∈ genre_songs_bucket E market favsRaw perBucket →
    x = discover_placeholder ∨
      excluded_label (fav_keys_of (cleaned_favorites favsRaw)) x := by
  intro hx
  unfold genre_songs_bucket finalize_bucket at hx
  have hx2 := List.mem_of_mem_take hx
  split_ifs at hx2 with hc
  · simp at hx2
    exact Or.inl hx2
  · obtain ⟨l, hl, hxl⟩ := interleave_mem _ hx2
    rw [List.mem_map] at hl
    obtain ⟨p, _, hpl⟩ := hl
    refine Or.inr ?_
    rw [← hpl] at hxl
    exact songs_for_genre_mem E _ _ _ _ _ _ x hxl

/-! ## Helper lemmas: bucket shapes -/

theorem finalize_bucket_ne_nil (p : Item) (cap : Nat) (l : List Item) (h : 1 ≤ cap) :
    finalize_bucket p cap l ≠ [] := by
  unfold finalize_bucket
  intro hc
  rw [List.take_eq_nil_iff] at hc
  rcases hc with hc | hc
  · omega
  · by_cases he : l = []
    · rw [if_pos he] at hc
      simp at hc
    · rw [if_neg he] at hc
      exact he hc

theorem finalize_bucket_len (p : Item) (cap : Nat) (l : List Item) :
    (finalize_bucket p cap l).length ≤ cap := by
  unfold finalize_bucket
  rw [List.length_take]
  exact min_le_left _ _

theorem may_know_discover_shape (E : Env) (market : String)
    (favsRaw : List (String × String)) (perBucket minArtists : Nat) :
    (may_know_discover E market favsRaw perBucket minArtists).1.length ≤ max 2 perBucket ∧
    (may_know_discover E market favsRaw perBucket minArtists).2.length ≤ max 2 perBucket ∧
    ¬((may_know_discover E market favsRaw perBucket minArtists).1 = [] ∧
      (may_know_discover E market favsRaw perBucket minArtists).2 = []) := by
  unfold may_know_discover
  dsimp only
  split_ifs with h
  · refine ⟨?_, ?_, ?_⟩
    · show (1 : Nat) ≤ max 2 perBucket
      have : (2 : Nat) ≤ max 2 perBucket := le_max_left _ _
      omega
    · show (List.take (max 2 perBucket) _).length ≤ max 2 perBucket
      rw [List.length_take]
      exact min_le_left _ _
    · intro hc
      simp at hc
  · refine ⟨?_, ?_, ?_⟩
    · show (List.take (max 2 perBucket) _).length ≤ max 2 perBucket
      rw [List.length_take]
      exact min_le_left _ _
    · show (List.take (max 2 perBucket) _).length ≤ max 2 perBucket
      rw [List.length_take]
      exact min_le_left _ _
    · exact h

/-! ## Helper lemmas: the resolver's strict-maximum fold -/

theorem best_fold_lt (E : Env) (tc ac : String) (q : ℚ) :
    ∀ (cs : List Track) (acc : Option Track × ℚ), acc.2 < q →
      (∀ c ∈ cs, cand_score E tc ac c < q) →
      (cs.foldl (best_step E tc ac) acc).2 < q := by
  intro cs
  induction cs with
  | nil => intro acc hacc _; exact hacc
  | cons c cs' ih =>
    intro acc hacc hall
    rw [List.foldl_cons]
    apply ih
    · simp only [best_step]
      split_ifs
      · exact hall c (List.mem_cons_self _ _)
      · exact hacc
    · intro c' hc'
      exact hall c' (List.mem_cons_of_mem _ hc')

theorem best_fold_stay (E : Env) (tc ac : String) :
    ∀ (cs : List Track) (acc : Option Track × ℚ),
      (∀ c ∈ cs, cand_score E tc ac c ≤ acc.2) →
      cs.foldl (best_step E tc ac) acc = acc := by
  intro cs
  induction cs with
  | nil => intro acc _; rfl
  | cons c cs' ih =>
    intro acc hall
    rw [List.foldl_cons]
    have hstep : best_step E tc ac acc c = acc := by
      simp only [best_step]
      rw [if_neg (not_lt.mpr (hall c (List.mem_cons_self _ _)))]
    rw [hstep]
    exact ih acc (fun c' hc' => hall c' (List.mem_cons_of_mem _ hc'))

theorem best_fold_max (E : Env) (tc ac : String) (q : ℚ) :
    ∀ (cs : List Track) (acc : Option Track × ℚ),
      (∀ c ∈ cs, cand_score E tc ac c ≤ q) → acc.2 < q →
      (∃ c ∈ cs, cand_score E tc ac c = q) →
      ∃ c', cs.foldl (best_step E tc ac) acc = (some c', cand_score E tc ac c') ∧
        c' ∈ cs ∧ cand_score E tc ac c' = q := by
  intro cs
  induction cs with
  | nil =>
    intro acc _ _ hex
    simp at hex
  | cons c cs' ih =>
    intro acc hall hacc hex
    rw [List.foldl_cons]
    by_cases hgt : cand_score E tc ac c > acc.2
    · have hstep : best_step E tc ac acc c = (some c, cand_score E tc ac c) := by
        unfold best_step
        rw [if_pos hgt]
      rw [hstep]
      by_cases hq : cand_score E tc ac c = q
      · have hstay : cs'.foldl (best_step E tc ac) (some c, cand_score E tc ac c)
            = (some c, cand_score E tc ac c) := by
          apply best_fold_stay
          intro c' hc'
          show cand_score E tc ac c' ≤ cand_score E tc ac c
          rw [hq]
          exact hall c' (List.mem_cons_of_mem _ hc')
        rw [hstay]
        exact ⟨c, rfl, List.mem_cons_self _ _, hq⟩
      · have hlt : cand_score E tc ac c < q :=
          lt_of_le_of_ne (hall c (List.mem_cons_self _ _)) hq
        have hex' : ∃ c' ∈ cs', cand_score E tc ac c' = q := by
          rcases hex with ⟨c0, hc0, hc0q⟩
          rcases List.mem_cons.mp hc0 with rfl | hc0'
          · exact absurd hc0q hq
          · exact ⟨c0, hc0', hc0q⟩
        obtain ⟨c', hfold, hc', hc'q⟩ :=
          ih (some c, cand_score E tc ac c)
            (fun c' hc' => hall c' (List.mem_cons_of_mem _ hc')) hlt hex'
        exact ⟨c', hfold, List.mem_cons_of_mem _ hc', hc'q⟩
    · have hstep : best_step E tc ac acc c = acc := by
        unfold best_step
        rw [if_neg hgt]
      rw [hstep]
      have hle : cand_score E tc ac c ≤ acc.2 := not_lt.mp hgt
      have hex' : ∃ c' ∈ cs', cand_score E tc ac c' = q := by
        rcases hex with ⟨c0, hc0, hc0q⟩
        rcases List.mem_cons.mp hc0 with rfl | hc0'
        · exact absurd hc0q (ne_of_lt (lt_of_le_of_lt hle hacc))
        · exact ⟨c0, hc0', hc0q⟩
      obtain ⟨c', hfold, hc', hc'q⟩ :=
        ih acc (fun c' hc' => hall c' (List.mem_cons_of_mem _ hc')) hacc hex'
      exact ⟨c', hfold, List.mem_cons_of_mem _ hc', hc'q⟩

theorem resolve_none_of_all_below (E : Env) (mk title artist : String) (limit : Nat)
    (cs : List Track)
    (hcands : try_search_variants E mk title artist limit = .ok cs)
    (hall : ∀ c ∈ cs,
      cand_score E (clean_str E.nfkd title) (clean_str E.nfkd artist) c < 72) :
    resolve_favorite_to_artist E mk title artist limit 72 = .ok none := by
  unfold resolve_favorite_to_artist
  rw [hcands]
  dsimp only
  rcases hb : best_candidate E (clean_str E.nfkd title) (clean_str E.nfkd artist) cs
    with ⟨ob, q⟩
  have hq : q < 72 := by
    have := best_fold_lt E (clean_str E.nfkd title) (clean_str E.nfkd artist) 72 cs
      (none, -1) (by norm_num) hall
    rw [show cs.foldl (best_step E (clean_str E.nfkd title) (clean_str E.nfkd artist))
        (none, -1) = best_candidate E (clean_str E.nfkd title) (clean_str E.nfkd artist) cs
      from rfl, hb] at this
    exact this
  dsimp only
  cases ob with
  | none => rfl
  | some bi =>
    dsimp only
    rw [if_pos hq]

theorem resolve_hit_max (E : Env) (mk title artist : String) (limit : Nat)
    (cs : List Track) (c : Track)
    (hcands : try_search_variants E mk title artist limit = .ok cs)
    (hc : c ∈ cs)
    (h100 : cand_score E (clean_str E.nfkd title) (clean_str E.nfkd artist) c = 100)
    (hall : ∀ c' ∈ cs,
      cand_score E (clean_str E.nfkd title) (clean_str E.nfkd artist) c' ≤ 100)
    (hart : ∀ i, ∃ a, E.cat.artist_by_id i = .ok a) :
    ∃ c' nm gs, c' ∈ cs ∧
      cand_score E (clean_str E.nfkd title) (clean_str E.nfkd artist) c' = 100 ∧
      resolve_favorite_to_artist E mk title artist limit 72
        = .ok (some (lead_artist_id c', nm, gs)) := by
  obtain ⟨c', hfold, hc', h100'⟩ :=
    best_fold_max E (clean_str E.nfkd title) (clean_str E.nfkd artist) 100 cs
      (none, -1) hall (by norm_num) ⟨c, hc, h100⟩
  have hb : best_candidate E (clean_str E.nfkd title) (clean_str E.nfkd artist) cs
      = (some c', cand_score E (clean_str E.nfkd title) (clean_str E.nfkd artist) c') :=
    hfold
  by_cases haid : lead_artist_id c' ≠ ""
  · obtain ⟨a, ha⟩ := hart (lead_artist_id c')
    refine ⟨c',
      (if a.anameO.getD "" ≠ "" then a.anameO.getD ""
        else (c'.tartists.head?.map ArtistRef.aname).getD ""),
      a.agenres, hc', h100', ?_⟩
    unfold resolve_favorite_to_artist
    rw [hcands]
    dsimp only
    rw [hb]
    dsimp only
    rw [if_neg (by rw [h100']; norm_num), if_pos haid, ha]
  · refine ⟨c',
      (if emptyArtist.anameO.getD "" ≠ "" then emptyArtist.anameO.getD ""
        else (c'.tartists.head?.map ArtistRef.aname).getD ""),
      emptyArtist.agenres, hc', h100', ?_⟩
    unfold resolve_favorite_to_artist
    rw [hcands]
    dsimp only
    rw [hb]
    dsimp only
    rw [if_neg (by rw [h100']; norm_num), if_neg haid]

/-! ## Helper lemmas: the minimum-Discover backfill -/

theorem emd_items_spec (minCount : Nat) :
    ∀ (items : List Artist) (disc : List Item) (excl : List String),
      ∃ ext extk,
        (emd_items minCount items disc excl).1 = disc ++ ext ∧
        (emd_items minCount items disc excl).2.1 = excl ++ extk ∧
        (∀ p ∈ ext, p.1.toLower ∉ excl) ∧
        (disc.length < minCount → (emd_items minCount items disc excl).1.length ≤ minCount) ∧
        (disc.length < minCount → (emd_items minCount items disc excl).2.2 = false →
          (emd_items minCount items disc excl).1.length < minCount) := by
  intro items
  induction items with
  | nil =>
    intro disc excl
    exact ⟨[], [], by simp [emd_items], by simp [emd_items], by simp,
      fun h => by simp [emd_items]; omega, fun h _ => by simpa [emd_items] using h⟩
  | cons ar rest ih =>
    intro disc excl
    rw [emd_items]
    dsimp only
    split_ifs with h1 h2 h3
    · exact ih disc excl
    · exact ih disc excl
    · refine ⟨[((ar.anameO.getD "").trim, artist_url ar)], [(ar.anameO.getD "").trim.toLower],
        rfl, rfl, ?_, ?_, ?_⟩
      · intro p hp
        simp at hp
        rw [hp]
        exact h2
      · intro _
        simp only [List.length_append, List.length_cons, List.length_nil]
        simp only [List.length_append, List.length_cons, List.length_nil] at h3
        omega
      · intro _ hfalse
        simp at hfalse
    · obtain ⟨ext, extk, he1, he2, he3, he4, he5⟩ :=
        ih (disc ++ [((ar.anameO.getD "").trim, artist_url ar)])
          (excl ++ [(ar.anameO.getD "").trim.toLower])
      refine ⟨((ar.anameO.getD "").trim, artist_url ar) :: ext,
        (ar.anameO.getD "").trim.toLower :: extk, ?_, ?_, ?_, ?_, ?_⟩
      · rw [he1]; simp
      · rw [he2]; simp
      · intro p hp
        rcases List.mem_cons.mp hp with rfl | hp'
        · exact h2
        · intro hc
          exact he3 p hp' (List.mem_append_left _ hc)
      · intro _
        apply he4
        simp only [List.length_append, List.length_cons, List.length_nil]
        simp only [not_le, List.length_append, List.length_cons, List.length_nil] at h3
        omega
      · intro _ hfalse
        apply he5
        · simp only [List.length_append, List.length_cons, List.length_nil]
          simp only [not_le, List.length_append, List.length_cons, List.length_nil] at h3
          omega
        · exact hfalse

theorem emd_genres_spec (E : Env) (mk : String) (minCount : Nat) :
    ∀ (gs : List (Nat × String)) (disc : List Item) (excl : List String),
      ∃ ext,
        emd_genres E mk minCount gs disc excl = disc ++ ext ∧
        (∀ p ∈ ext, p.1.toLower ∉ excl) ∧
        (disc.length < minCount →
          (emd_genres E mk minCount gs disc excl).length ≤ minCount) := by
  intro gs
  induction gs with
  | nil =>
    intro disc excl
    exact ⟨[], by simp [emd_genres], by simp, fun h => by simp [emd_genres]; omega⟩
  | cons p gs' ih =>
    intro disc excl
    obtain ⟨gi, g⟩ := p
    rw [emd_genres]
    rcases hs : search_artists_by_genre E.cat mk g 50 0 with e | items
    · exact ih disc excl
    · obtain ⟨ext1, extk1, hi1, hi2, hi3, hi4, hi5⟩ :=
        emd_items_spec minCount (E.sh.artist_mix 4 gi items) disc excl
      rcases hr : emd_items minCount (E.sh.artist_mix 4 gi items) disc excl with ⟨disc2, excl2, done⟩
      rw [hr] at hi1 hi2 hi4 hi5
      simp only [] at hi1 hi2 hi4 hi5
      dsimp only
      rw [hr]
      dsimp only
      cases done with
      | true =>
        rw [if_pos rfl]
        refine ⟨ext1, hi1, hi3, ?_⟩
        intro h
        rw [hi1] at hi4 ⊢
        exact hi4 h
      | false =>
        rw [if_neg (by simp)]
        obtain ⟨ext2, hg1, hg2, hg3⟩ := ih disc2 excl2
        refine ⟨ext1 ++ ext2, ?_, ?_, ?_⟩
        · rw [hg1, hi1, List.append_assoc]
        · intro q hq
          rcases List.mem_append.mp hq with hq1 | hq2
          · exact hi3 q hq1
          · intro hc
            exact hg2 q hq2 (hi2 ▸ List.mem_append_left _ hc)
        · intro h
          have hlt : disc2.length < minCount := hi5 h rfl
          exact hg3 hlt

/-! ## Helper lemmas: `_dedupe` -/

theorem dedupe_aux_key_not_seen :
    ∀ (l : List Item) (seen : List String) (p : Item), p ∈ dedupe_aux seen l →
      norm_key p.1 ≠ "" ∧ norm_key p.1 ∉ seen := by
  intro l
  induction l with
  | nil => intro seen p hp; simp [dedupe_aux] at hp
  | cons x rest ih =>
    intro seen p hp
    obtain ⟨n, u⟩ := x
    rw [dedupe_aux] at hp
    by_cases h : norm_key n ≠ "" ∧ norm_key n ∉ seen
    · rw [if_pos h] at hp
      rcases List.mem_cons.mp hp with rfl | hp
      · exact h
      · have := ih _ p hp
        exact ⟨this.1, fun hc => this.2 (List.mem_cons_of_mem _ hc)⟩
    · rw [if_neg h] at hp
      exact ih _ p hp

theorem dedupe_aux_pairwise :
    ∀ (l : List Item) (seen : List String),
      List.Pairwise (fun p q : Item => norm_key p.1 ≠ norm_key q.1) (dedupe_aux seen l) := by
  intro l
  induction l with
  | nil => intro seen; simp [dedupe_aux]
  | cons x rest ih =>
    intro seen
    obtain ⟨n, u⟩ := x
    rw [dedupe_aux]
    by_cases h : norm_key n ≠ "" ∧ norm_key n ∉ seen
    · rw [if_pos h]
      refine List.Pairwise.cons ?_ (ih _)
      intro q hq
      have := dedupe_aux_key_not_seen rest _ q hq
      intro hc
      exact this.2 (by rw [← hc]; exact List.mem_cons_self _ _)
    · rw [if_neg h]
      exact ih _

theorem dedupe_aux_fixed :
    ∀ (l : List Item) (seen : List String),
      (∀ p ∈ l, norm_key p.1 ≠ "" ∧ norm_key p.1 ∉ seen) →
      List.Pairwise (fun p q : Item => norm_key p.1 ≠ norm_key q.1) l →
      dedupe_aux seen l = l := by
  intro l
  induction l with
  | nil => intro seen _ _; rfl
  | cons x rest ih =>
    intro seen hmem hpair
    obtain ⟨n, u⟩ := x
    have hhd := hmem (n, u) (List.mem_cons_self _ _)
    rw [dedupe_aux, if_pos hhd]
    congr 1
    apply ih
    · intro p hp
      have h1 := hmem p (List.mem_cons_of_mem _ hp)
      have h2 := (List.pairwise_cons.mp hpair).1 p hp
      refine ⟨h1.1, ?_⟩
      intro hc
      rcases List.mem_cons.mp hc with hc1 | hc2
      · exact h2 hc1.symm
      · exact h1.2 hc2
    · exact (List.pairwise_cons.mp hpair).2

/-! ## Helper lemmas: the standard-mode dedup loop -/

theorem dedup_take_spec (maxRecs : Nat) :
    ∀ (input done : List Item) (seen : List String) (recs : List Item),
      List.Pairwise (fun p q : Item => p.1 ≠ q.1) recs →
      (∀ r ∈ recs, r.1 ∈ seen) →
      (∀ r ∈ recs, done.find? (fun p => p.1 == r.1) = some r) →
      (∀ q ∈ done, q.1 ∈ seen) →
      List.Pairwise (fun p q : Item => p.1 ≠ q.1) (dedup_take maxRecs seen recs input) ∧
      (∀ r ∈ dedup_take maxRecs seen recs input,
        (done ++ input).find? (fun p => p.1 == r.1) = some r) ∧
      (recs.length < maxRecs → (dedup_take maxRecs seen recs input).length ≤ maxRecs) ∧
      (∃ ext, dedup_take maxRecs seen recs input = recs ++ ext) := by
  intro input
  induction input with
  | nil =>
    intro done seen recs hpair hseen hfind _
    refine ⟨hpair, ?_, fun h => Nat.le_of_lt h, [], by simp [dedup_take]⟩
    intro r hr
    simp only [dedup_take] at hr
    simpa using hfind r hr
  | cons x rest ih =>
    intro done seen recs hpair hseen hfind hcover
    obtain ⟨t, u⟩ := x
    by_cases hit : t ∈ seen
    · rw [show dedup_take maxRecs seen recs ((t, u) :: rest)
          = if maxRecs ≤ recs.length then recs else dedup_take maxRecs seen recs rest
        from by simp [dedup_take, hit]]
      by_cases hstop : maxRecs ≤ recs.length
      · rw [if_pos hstop]
        refine ⟨hpair, ?_, fun h => Nat.le_of_lt h, [], by simp⟩
        intro r hr
        exact List.find?_append.trans (by rw [hfind r hr]; rfl)
      · rw [if_neg hstop]
        have hdone2 : ∀ r ∈ recs, (done ++ [(t, u)]).find? (fun p => p.1 == r.1) = some r := by
          intro r hr
          exact List.find?_append.trans (by rw [hfind r hr]; rfl)
        have hcover2 : ∀ q ∈ done ++ [(t, u)], q.1 ∈ seen := by
          intro q hq
          rcases List.mem_append.mp hq with hq1 | hq2
          · exact hcover q hq1
          · simp at hq2; rw [hq2]; exact hit
        have := ih (done ++ [(t, u)]) seen recs hpair hseen hdone2 hcover2
        rw [← List.append_cons] at this
        exact this
    · have hnone : done.find? (fun p => p.1 == t) = none := by
        rw [List.find?_eq_none]
        intro q hq hbeq
        exact hit (eq_of_beq hbeq ▸ hcover q hq)
      have hfound : (done ++ [(t, u)]).find? (fun p => p.1 == t) = some (t, u) := by
        rw [List.find?_append, hnone]
        simp
      have hpair2 : List.Pairwise (fun p q : Item => p.1 ≠ q.1) (recs ++ [(t, u)]) := by
        rw [List.pairwise_append]
        refine ⟨hpair, by simp, ?_⟩
        intro r hr q hq
        have hq2 : q = (t, u) := by simpa using hq
        subst hq2
        show r.1 ≠ t
        intro hc
        exact hit (hc ▸ hseen r hr)
      have hseen2 : ∀ r ∈ recs ++ [(t, u)], r.1 ∈ t :: seen := by
        intro r hr
        rcases List.mem_append.mp hr with hr1 | hr2
        · exact List.mem_cons_of_mem _ (hseen r hr1)
        · simp at hr2; rw [hr2]; exact List.mem_cons_self _ _
      have hfind2 : ∀ r ∈ recs ++ [(t, u)],
          (done ++ [(t, u)]).find? (fun p => p.1 == r.1) = some r := by
        intro r hr
        rcases List.mem_append.mp hr with hr1 | hr2
        · exact List.find?_append.trans (by rw [hfind r hr1]; rfl)
        · simp at hr2; rw [hr2]; exact hfound
      have hcover2 : ∀ q ∈ done ++ [(t, u)], q.1 ∈ t :: seen := by
        intro q hq
        rcases List.mem_append.mp hq with hq1 | hq2
        · exact List.mem_cons_of_mem _ (hcover q hq1)
        · simp at hq2; rw [hq2]; exact List.mem_cons_self _ _
      rw [show dedup_take maxRecs seen recs ((t, u) :: rest)
          = if maxRecs ≤ (recs ++ [(t, u)]).length then recs ++ [(t, u)]
            else dedup_take maxRecs (t :: seen) (recs ++ [(t, u)]) rest
        from by simp [dedup_take, hit]]
      by_cases hstop : maxRecs ≤ (recs ++ [(t, u)]).length
      · rw [if_pos hstop]
        refine ⟨hpair2, ?_, ?_, [(t, u)], rfl⟩
        · intro r hr
          rw [List.append_cons]
          exact List.find?_append.trans (by rw [hfind2 r hr]; rfl)
        · intro h
          simpa using Nat.succ_le_of_lt h
      · rw [if_neg hstop]
        have := ih (done ++ [(t, u)]) (t :: seen) (recs ++ [(t, u)]) hpair2 hseen2 hfind2 hcover2
        rw [← List.append_cons] at this
        refine ⟨this.1, this.2.1, ?_, ?_⟩
        · intro _
          exact this.2.2.1 (Nat.lt_of_not_le hstop)
        · obtain ⟨ext, hext⟩ := this.2.2.2
          exact ⟨(t, u) :: ext, by rw [hext]; simp⟩

theorem dedup_take_extends (maxRecs : Nat) :
    ∀ (input : List Item) (seen : List String) (recs : List Item),
      ∃ ext, dedup_take maxRecs seen recs input = recs ++ ext := by
  intro input
  induction input with
  | nil => intro seen recs; exact ⟨[], by simp [dedup_take]⟩
  | cons x rest ih =>
    intro seen recs
    obtain ⟨t, u⟩ := x
    rw [dedup_take]
    by_cases hit : t ∈ seen
    · rw [if_pos hit, if_pos hit]
      split_ifs
      · exact ⟨[], by simp⟩
      · exact ih seen recs
    · rw [if_neg hit, if_neg hit]
      split_ifs
      · exact ⟨[(t, u)], rfl⟩
      · obtain ⟨ext, hext⟩ := ih (t :: seen) (recs ++ [(t, u)])
        exact ⟨(t, u) :: ext, by rw [hext]; simp⟩

theorem dedup_take_ne_nil (maxRecs : Nat) (x : Item) (xs : List Item) :
    dedup_take maxRecs [] [] (x :: xs) ≠ [] := by
  obtain ⟨t, u⟩ := x
  rw [dedup_take]
  rw [if_neg (List.not_mem_nil t), if_neg (List.not_mem_nil t)]
  split_ifs
  · simp
  · obtain ⟨ext, hext⟩ := dedup_take_extends maxRecs xs [t] ([] ++ [(t, u)])
    rw [hext]
    simp

/-! ## Claim theorems -/

/-- C1 (counterexample): the favorite ("Blinding Lights", "The Weeknd") is
recommended back inside the "Hidden gems from your favorite artists"
bucket — its label is exactly `"Blinding Lights — The Weeknd"` — because
that bucket's track loop applies no favorite exclusion, contradicting the
claim that no bucket item's label matches a favorite's `"t — a"`. -/
theorem c1_counterexample :
    (build_recommendation_buckets env_w "US" [("Blinding Lights", "The Weeknd")] 35 5 2).hidden_gems
      = [("Blinding Lights — The Weeknd", "u2")] ∧
    "Blinding Lights — The Weeknd" = "Blinding Lights" ++ " — " ++ "The Weeknd" := by
  with_unfolding_all decide

/-- C1 (amended): the favorite-exclusion invariant holds where the code
checks it: every item of the "Songs from your genres (not your input
artists)" bucket is the placeholder or decomposes as `"title — lead"` with
a (trimmed, lowercased) pair that is not a favorite; likewise every item
of a standard-mode per-artist own-top-tracks candidate list.  The "Hidden
gems" bucket and the related-artist candidates apply no such exclusion
(see the counterexample). -/
theorem c1_amended_favorite_exclusion :
    ∀ (E : Env) (market : String) (favsRaw : List (String × String))
      (trackPopMax : Int) (perBucket minArtists : Nat) (x : Item),
      (x ∈ (build_recommendation_buckets E market favsRaw trackPopMax
          perBucket minArtists).genre_songs →
        x = discover_placeholder ∨
          excluded_label (fav_keys_of (cleaned_favorites favsRaw)) x) ∧
      (∀ (mk : String) (favKeys : List (String × String))
        (info : String × String × List String),
        x ∈ per_artist_fav_list E mk favKeys info → excluded_label favKeys x) := by
  intro E market favsRaw trackPopMax perBucket minArtists x
  constructor
  · intro h
    exact genre_songs_bucket_mem E market favsRaw perBucket x h
  · intro mk favKeys info h
    exact per_artist_fav_list_mem E mk favKeys info x h

/-- C1 (witness): the amended exclusion applied to the one item of the
songs bucket of a concrete run. -/
theorem c1_amended_witness :
    ("Nice Tune — Dee", "u3") = discover_placeholder ∨
      excluded_label (fav_keys_of (cleaned_favorites [("Song A", "Artist B")]))
        ("Nice Tune — Dee", "u3") :=
  (c1_amended_favorite_exclusion env_r "US" [("Song A", "Artist B")] 35 5 2
    ("Nice Tune — Dee", "u3")).1 (by with_unfolding_all decide)

/-- C2 (counterexample): `_api_get` performs no retry of any kind.  With a
valid cached token and a transport whose attempt 0 is rate-limited while
attempt 1 would succeed, the rate-limit error propagates directly to the
caller — the claimed sleep-and-retry-once behaviour does not exist. -/
theorem c2_counterexample :
    api_get 0 (.ok { access_token := "fresh", expires_in := 3600 })
        rate_limited_then_ok cached_state "/search"
      = .error (.rateLimited 1) ∧
    rate_limited_then_ok "tok" "/search" 1 = .ok 7 :=
  ⟨by with_unfolding_all rfl, by with_unfolding_all rfl⟩

/-- C2 (amended): `_api_get` issues exactly one GET — its result depends
only on attempt index 0 of the transport and any error of that attempt
propagates unchanged — and `_ensure_token` refreshes the token exactly
when none is cached (missing or empty) or the cached one has expired,
never in reaction to a server-signalled auth error. -/
theorem c2_amended_single_request :
    (∀ (β : Type) (now : ℚ) (te : Except SpErr TokenPayload)
      (r1 r2 : String → String → Nat → Except SpErr β) (st : ClientState) (path : String),
      (∀ tok p, r1 tok p 0 = r2 tok p 0) →
      api_get now te r1 st path = api_get now te r2 st path) ∧
    (∀ (β : Type) (now : ℚ) (te : Except SpErr TokenPayload)
      (r : String → String → Nat → Except SpErr β) (st st2 : ClientState)
      (path tok : String) (e : SpErr),
      ensure_token now te st = .ok (tok, st2) → r tok path 0 = .error e →
      api_get now te r st path = .error e) ∧
    (∀ (now : ℚ) (te : Except SpErr TokenPayload) (st : ClientState),
      token_missing st.access_token = false → now < st.expires_at →
      ensure_token now te st = .ok (st.access_token.getD "", st)) ∧
    (∀ (now : ℚ) (te : Except SpErr TokenPayload) (st : ClientState),
      (token_missing st.access_token = true ∨ st.expires_at ≤ now) →
      ensure_token now te st
        = (fetch_access_token now te st).map (fun st2 => (st2.access_token.getD "", st2))) := by
  refine ⟨?_, ?_, ?_, ?_⟩
  · intro β now te r1 r2 st path hagree
    unfold api_get
    cases ensure_token now te st with
    | error e => rfl
    | ok p =>
      obtain ⟨tok, st2⟩ := p
      dsimp only
      rw [hagree tok path]
  · intro β now te r st st2 path tok e hens hresp
    unfold api_get
    rw [hens]
    dsimp only
    rw [hresp]
  · intro now te st h1 h2
    unfold ensure_token
    rw [if_neg]
    simp [h1, not_le.mpr h2]
  · intro now te st h
    unfold ensure_token
    rw [if_pos]
    · cases hf : fetch_access_token now te st with
      | error e => simp [Except.map]
      | ok st2 => simp [Except.map]
    · rcases h with h | h
      · exact Or.inl h
      · exact Or.inr h

/-- C2 (witness): the amended behaviour at concrete inputs — a cached
valid token is reused without contacting the token endpoint, and the
single rate-limited response propagates. -/
theorem c2_amended_witness :
    ensure_token 0 (.ok { access_token := "fresh", expires_in := 3600 }) cached_state
      = .ok ("tok", cached_state) ∧
    api_get 0 (.ok { access_token := "fresh", expires_in := 3600 })
        rate_limited_then_ok cached_state "/search"
      = .error (.rateLimited 1) := by
  constructor
  · exact (c2_amended_single_request.2.2.1 0 _ cached_state (by rfl)
      (by with_unfolding_all decide))
  · exact c2_amended_single_request.2.1 Nat 0 _ rate_limited_then_ok cached_state
      cached_state "/search" "tok" (.rateLimited 1)
      (c2_amended_single_request.2.2.1 0 _ cached_state (by rfl)
        (by with_unfolding_all decide))
      (by with_unfolding_all rfl)

/-- C3 (counterexample): the "Discover" bucket of a concrete run is empty
(its sibling "Artists you may know" is not, so the joint placeholder does
not fire), contradicting the claim that every one of the five buckets is
non-empty. -/
theorem c3_counterexample :
    (build_recommendation_buckets env_b "US" [("Song A", "Artist B")] 35 5 2).discover = [] ∧
    (build_recommendation_buckets env_b "US" [("Song A", "Artist B")] 35 5 2).may_know
      = [("maycee", "uc")] := by
  with_unfolding_all decide

/-- C3 (amended): the cap part of the claim holds for every input — each
of the first four buckets has length at most `max 2 per_bucket` and the
rising-stars bucket at most `max per_bucket min_artists` — but
non-emptiness holds unconditionally only for "Hidden gems" and "Songs from
your genres"; "Rising stars" is non-empty whenever its cap is positive,
and the two artist buckets are only jointly non-empty (the placeholder
fires only when both are empty). -/
theorem c3_amended_bucket_shape :
    ∀ (E : Env) (market : String) (favsRaw : List (String × String))
      (trackPopMax : Int) (perBucket minArtists : Nat),
      (build_recommendation_buckets E market favsRaw trackPopMax perBucket
        minArtists).hidden_gems ≠ [] ∧
      (build_recommendation_buckets E market favsRaw trackPopMax perBucket
        minArtists).hidden_gems.length ≤ max 2 perBucket ∧
      (build_recommendation_buckets E market favsRaw trackPopMax perBucket
        minArtists).genre_songs ≠ [] ∧
      (build_recommendation_buckets E market favsRaw trackPopMax perBucket
        minArtists).genre_songs.length ≤ max 2 perBucket ∧
      (build_recommendation_buckets E market favsRaw trackPopMax perBucket
        minArtists).may_know.length ≤ max 2 perBucket ∧
      (build_recommendation_buckets E market favsRaw trackPopMax perBucket
        minArtists).discover.length ≤ max 2 perBucket ∧
      ¬((build_recommendation_buckets E market favsRaw trackPopMax perBucket
          minArtists).may_know = [] ∧
        (build_recommendation_buckets E market favsRaw trackPopMax perBucket
          minArtists).discover = []) ∧
      (build_recommendation_buckets E market favsRaw trackPopMax perBucket
        minArtists).rising.length ≤ max perBucket minArtists ∧
      (1 ≤ max perBucket minArtists →
        (build_recommendation_buckets E market favsRaw trackPopMax perBucket
          minArtists).rising ≠ []) := by
  intro E market favsRaw trackPopMax perBucket minArtists
  have hcap : (1 : Nat) ≤ max 2 perBucket :=
    le_trans (by norm_num) (le_max_left 2 perBucket)
  have hmkd := may_know_discover_shape E market favsRaw perBucket minArtists
  exact ⟨finalize_bucket_ne_nil _ _ _ hcap, finalize_bucket_len _ _ _,
    finalize_bucket_ne_nil _ _ _ hcap, finalize_bucket_len _ _ _,
    hmkd.1, hmkd.2.1, hmkd.2.2,
    finalize_bucket_len _ _ _, fun h => finalize_bucket_ne_nil _ _ _ h⟩

/-- C3 (witness): the amended shape at a concrete run with a positive
rising-stars cap. -/
theorem c3_amended_witness :
    (build_recommendation_buckets env_r "US" [("Song A", "Artist B")] 35 5 2).rising ≠ [] :=
  (c3_amended_bucket_shape env_r "US" [("Song A", "Artist B")] 35 5 2).2.2.2.2.2.2.2.2
    (by decide)

/-- C4 (counterexample): standard-mode dedup is by exact label, not
case-insensitive — a concrete run returns both `"SONG — B"` and
`"Song — B"`, two items whose labels coincide after lowercasing,
contradicting the claimed case-insensitive dedup. -/
theorem c4_counterexample :
    recommend_from_favorites env_s "US" "20240101" [("s", "a")] 3 0
      = [("SONG — B", "v2"), ("Song — B", "v1")] ∧
    (recommend_from_favorites env_s "US" "20240101" [("s", "a")] 3 0).map
        (fun p => p.1.toLower)
      = ["song — b", "song — b"] := by
  with_unfolding_all decide

/-- C4 (amended): on the resolved path, with a non-empty shuffled candidate
list and a positive cap, the output of `recommend_from_favorites` is the
dedup-and-truncate of the stable-shuffled list by EXACT label match: output
labels are pairwise distinct as strings, the output has at most `max_recs`
items, and every output item is the first exact occurrence of its label in
the shuffled list. -/
theorem c4_amended_dedup_exact :
    ∀ (E : Env) (market dateKey : String) (favsRaw : List (String × String))
      (maxRecs regenNonce : Nat),
      resolved_infos E (norm_market market) (cleaned_favorites favsRaw) ≠ [] →
      standard_shuffled E market dateKey favsRaw regenNonce ≠ [] →
      1 ≤ maxRecs →
      List.Pairwise (fun p q : Item => p.1 ≠ q.1)
        (recommend_from_favorites E market dateKey favsRaw maxRecs regenNonce) ∧
      (recommend_from_favorites E market dateKey favsRaw maxRecs regenNonce).length
        ≤ maxRecs ∧
      ∀ r ∈ recommend_from_favorites E market dateKey favsRaw maxRecs regenNonce,
        (standard_shuffled E market dateKey favsRaw regenNonce).find?
          (fun p => p.1 == r.1) = some r := by
  intro E market dateKey favsRaw maxRecs regenNonce hinfos hS hmax
  obtain ⟨s0, srest, hS2⟩ := List.exists_cons_of_ne_nil hS
  have hout : recommend_from_favorites E market dateKey favsRaw maxRecs regenNonce
      = dedup_take maxRecs [] []
        (standard_shuffled E market dateKey favsRaw regenNonce) := by
    unfold recommend_from_favorites
    rw [if_neg hinfos]
    dsimp only
    rw [if_neg]
    rw [hS2]
    exact dedup_take_ne_nil maxRecs s0 srest
  have hspec := dedup_take_spec maxRecs
    (standard_shuffled E market dateKey favsRaw regenNonce) [] [] []
    (by simp) (by simp) (by simp) (by simp)
  rw [hout]
  refine ⟨hspec.1, hspec.2.2.1 (by simpa using hmax), ?_⟩
  intro r hr
  have := hspec.2.1 r hr
  simpa using this

/-- C4 (witness): the amended dedup facts at the concrete run of the
counterexample. -/
theorem c4_amended_witness :
    List.Pairwise (fun p q : Item => p.1 ≠ q.1)
      (recommend_from_favorites env_s "US" "20240101" [("s", "a")] 3 0) ∧
    (recommend_from_favorites env_s "US" "20240101" [("s", "a")] 3 0).length ≤ 3 ∧
    ∀ r ∈ recommend_from_favorites env_s "US" "20240101" [("s", "a")] 3 0,
      (standard_shuffled env_s "US" "20240101" [("s", "a")] 0).find?
        (fun p => p.1 == r.1) = some r :=
  c4_amended_dedup_exact env_s "US" "20240101" [("s", "a")] 3 0
    (by with_unfolding_all decide) (by with_unfolding_all decide) (by norm_num)

/-- C5: `_interleave_lists` is the round-robin merge — its first `k`
outputs (`k` the number of non-empty inputs) are exactly the heads of the
non-empty input lists in list order, and the spec's example holds. -/
theorem c5_interleave_round_robin :
    (∀ (α : Type) (lists : List (List α)),
      (interleave_lists lists).take ((lists.filter (fun l => !l.isEmpty)).length)
        = lists.filterMap List.head?) ∧
    interleave_lists [[1, 2], [10, 20, 30]] = [1, 10, 2, 20, 30] :=
  ⟨fun _ lists => interleave_take_heads lists, by decide⟩

/-- C6: `_stable_shuffle` returns a permutation of its input of the same
length, and it is deterministic — equal items and equal salt give equal
output (for every hash function and random stream, covering the real
sha256-seeded generator). -/
theorem c6_stable_shuffle_perm_det :
    ∀ (α : Type) (hashS : String → Nat) (rb : Nat → Nat → Nat)
      (items : List α) (salt : String),
      List.Perm (stable_shuffle hashS rb items salt) items ∧
      (stable_shuffle hashS rb items salt).length = items.length ∧
      (∀ (items2 : List α) (salt2 : String), items2 = items → salt2 = salt →
        stable_shuffle hashS rb items2 salt2 = stable_shuffle hashS rb items salt) := by
  intro α hashS rb items salt
  have hperm : List.Perm (stable_shuffle hashS rb items salt) items :=
    py_shuffle_perm (rb (hashS salt)) items
  refine ⟨hperm, hperm.length_eq, ?_⟩
  intro items2 salt2 h1 h2
  rw [h1, h2]

/-- C6 (witness): determinism and the permutation property at a concrete
input. -/
theorem c6_witness :
    stable_shuffle (fun _ => 0) (fun _ _ => 0) [1, 2, 3] "US|20240101||0"
      = stable_shuffle (fun _ => 0) (fun _ _ => 0) [1, 2, 3] "US|20240101||0" ∧
    List.Perm (stable_shuffle (fun _ => 0) (fun _ _ => 0) [1, 2, 3] "US|20240101||0")
      [1, 2, 3] :=
  ⟨(c6_stable_shuffle_perm_det Nat (fun _ => 0) (fun _ _ => 0) [1, 2, 3]
      "US|20240101||0").2.2 [1, 2, 3] "US|20240101||0" rfl rfl,
   (c6_stable_shuffle_perm_det Nat (fun _ => 0) (fun _ _ => 0) [1, 2, 3]
      "US|20240101||0").1⟩

/-- C7: track-anchored resolution scores candidates as
`0.6 * similarity(artist, lead) + 0.4 * similarity(title, name)` over
normalized strings and keeps the strict maximum: it returns `none`
whenever every candidate scores strictly below 72, and whenever some
candidate scores 100 (and no score exceeds 100, the scale's maximum) it
returns a result carrying the lead-artist id of a score-100 candidate. -/
theorem c7_resolver_threshold :
    ∀ (E : Env) (mk title artist : String) (limit : Nat) (cs : List Track),
      try_search_variants E mk title artist limit = .ok cs →
      ((∀ c ∈ cs,
          cand_score E (clean_str E.nfkd title) (clean_str E.nfkd artist) c < 72) →
        resolve_favorite_to_artist E mk title artist limit 72 = .ok none) ∧
      (∀ c ∈ cs,
        cand_score E (clean_str E.nfkd title) (clean_str E.nfkd artist) c = 100 →
        (∀ c' ∈ cs,
          cand_score E (clean_str E.nfkd title) (clean_str E.nfkd artist) c' ≤ 100) →
        (∀ i, ∃ a, E.cat.artist_by_id i = .ok a) →
        ∃ c' nm gs, c' ∈ cs ∧
          cand_score E (clean_str E.nfkd title) (clean_str E.nfkd artist) c' = 100 ∧
          resolve_favorite_to_artist E mk title artist limit 72
            = .ok (some (lead_artist_id c', nm, gs))) := by
  intro E mk title artist limit cs hcands
  constructor
  · intro hall
    exact resolve_none_of_all_below E mk title artist limit cs hcands hall
  · intro c hc h100 hall hart
    exact resolve_hit_max E mk title artist limit cs c hcands hc h100 hall hart

/-- C7 (witness): both branches at concrete runs — every score 0 gives
`none`; a score-100 candidate resolves to its lead artist `"B1"`. -/
theorem c7_witness :
    resolve_favorite_to_artist env_b0 "US" "Song A" "Artist B" 10 72 = .ok none ∧
    (∃ c' nm gs, c' ∈ [trackB] ∧
      cand_score env_b (clean_str env_b.nfkd "Song A")
        (clean_str env_b.nfkd "Artist B") c' = 100 ∧
      resolve_favorite_to_artist env_b "US" "Song A" "Artist B" 10 72
        = .ok (some (lead_artist_id c', nm, gs))) := by
  constructor
  · refine (c7_resolver_threshold env_b0 "US" "Song A" "Artist B" 10 [trackB]
      (by with_unfolding_all rfl)).1 ?_
    intro c hcm
    rw [List.mem_singleton] at hcm
    subst hcm
    with_unfolding_all decide
  · refine (c7_resolver_threshold env_b "US" "Song A" "Artist B" 10 [trackB]
      (by with_unfolding_all rfl)).2 trackB (List.mem_singleton.mpr rfl) ?_ ?_ ?_
    · with_unfolding_all decide
    · intro c hcm
      rw [List.mem_singleton] at hcm
      subst hcm
      with_unfolding_all decide
    · intro i
      exact ⟨artistB, rfl⟩

/-- C8 (counterexample): a favorite resolves to an artist with a non-empty
related-artist source, yet "Artists you may know" and "Discover" combined
hold a single item, below `min(2, per_bucket) = 2` — the combined minimum
of the claim is not guaranteed when the related and genre searches yield
fewer than two eligible names. -/
theorem c8_counterexample :
    resolved_infos env_b "US" (cleaned_favorites [("Song A", "Artist B")])
      = [("B1", "Artist B", ["g"])] ∧
    env_b.cat.related_raw "B1" = .ok [artistC] ∧
    (build_recommendation_buckets env_b "US" [("Song A", "Artist B")] 35 5 2).may_know.length
      + (build_recommendation_buckets env_b "US" [("Song A", "Artist B")] 35 5
          2).discover.length = 1 ∧
    1 < min 2 5 :=
  ⟨by with_unfolding_all rfl, by with_unfolding_all rfl,
   by with_unfolding_all decide, by decide⟩

/-- C8 (amended): the minimum-Discover backfill pass is a no-op when
"Discover" already has 2 entries; otherwise it only appends artists whose
lowercased names are neither a favorite's artist name nor already present
in "Discover" or "Artists you may know", and it stops as soon as
"Discover" reaches 2 entries (the result never exceeds 2 items in that
case).  The claim's combined `min(2, per_bucket)` lower bound is not
guaranteed (see the counterexample). -/
theorem c8_amended_backfill :
    ∀ (E : Env) (mk : String) (favs : List (String × String))
      (infos : List (String × String × List String)) (mayKnow disc : List Item),
      (2 ≤ disc.length → ensure_min_discover E mk favs infos mayKnow disc 2 = disc) ∧
      (disc.length < 2 →
        ∃ ext, ensure_min_discover E mk favs infos mayKnow disc 2 = disc ++ ext ∧
          (ensure_min_discover E mk favs infos mayKnow disc 2).length ≤ 2 ∧
          ∀ p ∈ ext,
            p.1.toLower ∉ favs.map (fun q => q.2.toLower) ∧
            p.1.toLower ∉ disc.map (fun q => q.1.toLower) ∧
            p.1.toLower ∉ mayKnow.map (fun q => q.1.toLower)) := by
  intro E mk favs infos mayKnow disc
  constructor
  · intro h
    unfold ensure_min_discover
    rw [if_pos h]
  · intro hlt
    unfold ensure_min_discover
    rw [if_neg (not_le.mpr hlt)]
    obtain ⟨ext, h1, h2, h3⟩ := emd_genres_spec E mk 2 _ disc
      ((favs.map (fun p => p.2.toLower)) ++ (disc.map (fun p => p.1.toLower)) ++
        (mayKnow.map (fun p => p.1.toLower)))
    refine ⟨ext, h1, h3 hlt, ?_⟩
    intro p hp
    have := h2 p hp
    refine ⟨fun hc => this ?_, fun hc => this ?_, fun hc => this ?_⟩
    · exact List.mem_append_left _ (List.mem_append_left _ hc)
    · exact List.mem_append_left _ (List.mem_append_right _ hc)
    · exact List.mem_append_right _ hc

/-- C8 (witness): the backfill facts at concrete lists evaluated against a
concrete catalog — a no-op on a 2-element "Discover", and the appended-item
characterization on an empty one. -/
theorem c8_amended_witness :
    ensure_min_discover env_b "US" [("t", "A")] [] [("B", "u")]
        [("x", "u1"), ("y", "u2")] 2 = [("x", "u1"), ("y", "u2")] ∧
    (∃ ext, ensure_min_discover env_b "US" [("t", "A")] [] [("B", "u")] [] 2 = [] ++ ext ∧
      (ensure_min_discover env_b "US" [("t", "A")] [] [("B", "u")] [] 2).length ≤ 2 ∧
      ∀ p ∈ ext,
        p.1.toLower ∉ [("t", "A")].map (fun q : String × String => q.2.toLower) ∧
        p.1.toLower ∉ ([] : List Item).map (fun q => q.1.toLower) ∧
        p.1.toLower ∉ [("B", "u")].map (fun q : Item => q.1.toLower)) :=
  ⟨(c8_amended_backfill env_b "US" [("t", "A")] [] [("B", "u")]
      [("x", "u1"), ("y", "u2")]).1 (by decide),
   (c8_amended_backfill env_b "US" [("t", "A")] [] [("B", "u")] []).2 (by decide)⟩

/-- C9: `_dedupe` is idempotent — applying it to its own output returns
that output unchanged. -/
theorem c9_dedupe_idempotent : ∀ (items : List Item), dedupe (dedupe items) = dedupe items := by
  intro items
  apply dedupe_aux_fixed
  · intro p hp
    exact ⟨(dedupe_aux_key_not_seen items [] p hp).1, by simp⟩
  · exact dedupe_aux_pairwise items []

/-- C10: `_stable_shuffle` never mutates its argument — in the
state-passing rendering of the call, the caller's list after the call is
the unchanged input (the shuffle acts on the copy), and the returned value
is the shuffled copy. -/
theorem c10_stable_shuffle_no_mutation :
    ∀ (α : Type) (hashS : String → Nat) (rb : Nat → Nat → Nat)
      (items : List α) (salt : String),
      (stable_shuffle_call hashS rb items salt).2 = items ∧
      (stable_shuffle_call hashS rb items salt).1 = stable_shuffle hashS rb items salt :=
  fun _ _ _ _ _ => ⟨rfl, rfl⟩

end SongRec
